import Mathlib

/-!
Shallow embedding of the score-conversion core of the PsicoMetric WISC-V
application (src/PsicoMetric), together with proofs about it.

Conventions of the embedding:
* Python floats are modelled by `ℚ`; Python `round` (round half to even)
  by `pyRound`.
* A raised Python exception is modelled by a `none` result.
* Python strings are modelled by `String`; the string-scanning builtins
  used by the source (`split('-')`, `in`, `int(...)`, whitespace strip)
  are modelled structurally over `List Char` so that they compute.
-/

namespace PsicoMetric

/-- Python's `round`: round to the nearest integer, ties to even.
`⌊q⌋ % 2` uses Lean's Euclidean `%`, which agrees with Python's `%` here. -/
def pyRound (q : ℚ) : Int :=
  if q - ⌊q⌋ < 1 / 2 then ⌊q⌋
  else if 1 / 2 < q - ⌊q⌋ then ⌊q⌋ + 1
  else if ⌊q⌋ % 2 = 0 then ⌊q⌋ else ⌊q⌋ + 1

/-- Left strip plus right strip of whitespace, as Python `str.strip()`. -/
def pyStrip (s : List Char) : List Char :=
  ((s.dropWhile Char.isWhitespace).reverse.dropWhile Char.isWhitespace).reverse

/-- Digits-only string to number; `none` on the empty list or a non-digit. -/
def digitosANat : List Char → Option Nat
  | [] => none
  | ds =>
    if ds.all Char.isDigit then
      some (ds.foldl (fun acc c => acc * 10 + (c.toNat - '0'.toNat)) 0)
    else none

/-- Python `int(str)`: optional surrounding whitespace, optional sign,
decimal digits; `none` models the `ValueError` raised otherwise. -/
def pyInt (s : List Char) : Option Int :=
  match pyStrip s with
  | '+' :: ds => (digitosANat ds).map (fun n => (n : Int))
  | '-' :: ds => (digitosANat ds).map (fun n => -(n : Int))
  | ds => (digitosANat ds).map (fun n => (n : Int))

/-- `listaEsPrefijo n h` is true when `n` is a prefix of `h`. -/
def listaEsPrefijo : List Char → List Char → Bool
  | [], _ => true
  | _ :: _, [] => false
  | a :: as, b :: bs => a == b && listaEsPrefijo as bs

/-- Python's substring test `needle in hay`. -/
def contieneSub (needle : List Char) : List Char → Bool
  | [] => needle.isEmpty
  | c :: rest => listaEsPrefijo needle (c :: rest) || contieneSub needle rest

/-- Python's `str.split(sep)` for a one-character separator. -/
def pySplit (sep : Char) : List Char → List (List Char)
  | [] => [[]]
  | c :: rest =>
    if c = sep then [] :: pySplit sep rest
    else
      match pySplit sep rest with
      | [] => [[c]]
      | grupo :: grupos => (c :: grupo) :: grupos

/-- Python `min` over a non-empty list (head plus tail). -/
def pyMin (x : Int) (xs : List Int) : Int := xs.foldl min x

/-- Python `max` over a non-empty list (head plus tail). -/
def pyMax (x : Int) (xs : List Int) : Int := xs.foldl max x

/-! ## Composite converter (`ConversorCompuestos.convertir_compuesto`, main.py 420-512)

A row of a composite index table (`tabla_escala['datos']` in the JSON):
sum of scaled scores, composite value, percentile band and the two
confidence-interval strings. -/

structure Fila where
  suma : Int
  valor : Int
  percentil : String
  conf_90 : String
  conf_95 : String
deriving DecidableEq, Repr

/-- The dict returned by `convertir_compuesto`. -/
structure Resultado where
  compuesto : Int
  percentil : String
  conf_90 : String
  conf_95 : String
  nombre_escala : String
deriving DecidableEq, Repr

/-- main.py 446-459: extrapolation below the minimum, from the first two rows. -/
def extrapolacionBaja (nombre : String) (fila_min fila_sig : Fila) (suma_escalar : Int) : Resultado :=
  let pendiente : ℚ := ((fila_sig.valor : ℚ) - (fila_min.valor : ℚ)) / ((fila_sig.suma : ℚ) - (fila_min.suma : ℚ))
  let valor_extrapolado : ℚ := (fila_min.valor : ℚ) + pendiente * ((suma_escalar : ℚ) - (fila_min.suma : ℚ))
  { compuesto := max 40 (min 160 (pyRound valor_extrapolado))
    percentil := fila_min.percentil
    conf_90 := fila_min.conf_90
    conf_95 := fila_min.conf_95
    nombre_escala := nombre }

/-- main.py 461-483: damped extrapolation above the maximum, from the last two rows. -/
def extrapolacionAlta (nombre : String) (fila_ant fila_max : Fila) (suma_escalar : Int) : Resultado :=
  let pendiente : ℚ := ((fila_max.valor : ℚ) - (fila_ant.valor : ℚ)) / ((fila_max.suma : ℚ) - (fila_ant.suma : ℚ))
  let pendiente_conservadora : ℚ := pendiente * (7 / 10)
  let valor_extrapolado : ℚ := (fila_max.valor : ℚ) + pendiente_conservadora * ((suma_escalar : ℚ) - (fila_max.suma : ℚ))
  { compuesto := max fila_max.valor (min 160 (pyRound valor_extrapolado))
    percentil := if contieneSub "99.9".data fila_max.percentil.data then ">99.9" else fila_max.percentil
    conf_90 := fila_max.conf_90
    conf_95 := fila_max.conf_95
    nombre_escala := nombre }

/-- main.py 486-499: linear interpolation between two bracketing rows. -/
def interpolacion (nombre : String) (fila_inf fila_sup : Fila) (suma_escalar : Int) : Resultado :=
  let razon : ℚ := ((suma_escalar : ℚ) - (fila_inf.suma : ℚ)) / ((fila_sup.suma : ℚ) - (fila_inf.suma : ℚ))
  let valor : ℚ := (fila_inf.valor : ℚ) + razon * ((fila_sup.valor : ℚ) - (fila_inf.valor : ℚ))
  { compuesto := pyRound valor
    percentil := fila_inf.percentil
    conf_90 := fila_inf.conf_90
    conf_95 := fila_inf.conf_95
    nombre_escala := nombre }

/-- main.py 486-499: the scan `for i in range(len(datos)-1)` for the first
pair of adjacent rows bracketing `suma_escalar`; `none` when the loop falls
through without returning. -/
def buscarIntervalo (nombre : String) (suma_escalar : Int) : List Fila → Option Resultado
  | fila_inf :: fila_sup :: resto =>
    if fila_inf.suma ≤ suma_escalar ∧ suma_escalar ≤ fila_sup.suma then
      some (interpolacion nombre fila_inf fila_sup suma_escalar)
    else buscarIntervalo nombre suma_escalar (fila_sup :: resto)
  | _ => none

/-- main.py 420-512, `ConversorCompuestos.convertir_compuesto` for one index
table: `nombre` is `tabla_escala['nombre']`, `datos` is `tabla_escala['datos']`.
`none` models the exceptions the Python code can raise on this path
(`min()` of an empty list, `datos[1]`/`datos[-2]` on a one-row table,
`ZeroDivisionError` on duplicate boundary sums). -/
def convertir_compuesto (nombre : String) (datos : List Fila) (suma_escalar : Int) : Option Resultado :=
  match datos.find? (fun fila => fila.suma == suma_escalar) with
  | some fila =>
    some { compuesto := fila.valor, percentil := fila.percentil,
           conf_90 := fila.conf_90, conf_95 := fila.conf_95, nombre_escala := nombre }
  | none =>
    match datos with
    | [] => none
    | f0 :: resto =>
      if suma_escalar < pyMin f0.suma (resto.map Fila.suma) then
        match resto with
        | [] => none
        | f1 :: _ =>
          if f1.suma = f0.suma then none
          else some (extrapolacionBaja nombre f0 f1 suma_escalar)
      else if pyMax f0.suma (resto.map Fila.suma) < suma_escalar then
        match (f0 :: resto).reverse with
        | fila_max :: fila_ant :: _ =>
          if fila_max.suma = fila_ant.suma then none
          else some (extrapolacionAlta nombre fila_ant fila_max suma_escalar)
        | _ => none
      else
        match buscarIntervalo nombre suma_escalar (f0 :: resto) with
        | some r => some r
        | none =>
          let ultima := (f0 :: resto).getLast (List.cons_ne_nil f0 resto)
          some { compuesto := ultima.valor, percentil := ultima.percentil,
                 conf_90 := ultima.conf_90, conf_95 := ultima.conf_95, nombre_escala := nombre }

/-! ## Arithmetic lemmas about `pyRound`, `pyMin`, `pyMax` -/

theorem pyRound_intCast (n : Int) : pyRound (n : ℚ) = n := by
  unfold pyRound
  rw [Int.floor_intCast]
  norm_num

theorem pyRound_mono {q r : ℚ} (h : q ≤ r) : pyRound q ≤ pyRound r := by
  unfold pyRound
  have hf : ⌊q⌋ ≤ ⌊r⌋ := Int.floor_mono h
  rcases lt_or_eq_of_le hf with hlt | heq
  · split_ifs <;> omega
  · have hfr : q - (⌊q⌋ : ℚ) ≤ r - (⌊r⌋ : ℚ) := by
      rw [heq]
      exact sub_le_sub_right h _
    split_ifs <;> first | omega | linarith

theorem pyRound_le_int {q : ℚ} {n : Int} (h : q ≤ (n : ℚ)) : pyRound q ≤ n := by
  have := pyRound_mono h
  rwa [pyRound_intCast] at this

theorem int_le_pyRound {q : ℚ} {n : Int} (h : (n : ℚ) ≤ q) : n ≤ pyRound q := by
  have := pyRound_mono h
  rwa [pyRound_intCast] at this

theorem pyMin_le_head (x : Int) (xs : List Int) : pyMin x xs ≤ x := by
  induction xs generalizing x with
  | nil => exact le_refl x
  | cons y ys ih =>
    calc pyMin x (y :: ys) = pyMin (min x y) ys := rfl
    _ ≤ min x y := ih (min x y)
    _ ≤ x := min_le_left x y

theorem pyMin_le_mem (x : Int) (xs : List Int) : ∀ y ∈ xs, pyMin x xs ≤ y := by
  induction xs generalizing x with
  | nil => intro y hy; cases hy
  | cons z zs ih =>
    intro y hy
    rcases List.mem_cons.1 hy with rfl | hy'
    · calc pyMin x (y :: zs) = pyMin (min x y) zs := rfl
      _ ≤ min x y := pyMin_le_head _ _
      _ ≤ y := min_le_right x y
    · exact ih (min x z) y hy'

theorem le_pyMin {b x : Int} {xs : List Int} (hx : b ≤ x) (hxs : ∀ y ∈ xs, b ≤ y) :
    b ≤ pyMin x xs := by
  induction xs generalizing x with
  | nil => exact hx
  | cons z zs ih =>
    have hz : b ≤ z := hxs z (List.mem_cons_self z zs)
    exact ih (le_min hx hz) (fun y hy => hxs y (List.mem_cons_of_mem z hy))

theorem head_le_pyMax (x : Int) (xs : List Int) : x ≤ pyMax x xs := by
  induction xs generalizing x with
  | nil => exact le_refl x
  | cons y ys ih =>
    calc x ≤ max x y := le_max_left x y
    _ ≤ pyMax (max x y) ys := ih (max x y)
    _ = pyMax x (y :: ys) := rfl

theorem mem_le_pyMax (x : Int) (xs : List Int) : ∀ y ∈ xs, y ≤ pyMax x xs := by
  induction xs generalizing x with
  | nil => intro y hy; cases hy
  | cons z zs ih =>
    intro y hy
    rcases List.mem_cons.1 hy with rfl | hy'
    · calc y ≤ max x y := le_max_right x y
      _ ≤ pyMax (max x y) zs := head_le_pyMax _ _
      _ = pyMax x (y :: zs) := rfl
    · exact ih (max x z) y hy'

theorem pyMax_le {b x : Int} {xs : List Int} (hx : x ≤ b) (hxs : ∀ y ∈ xs, y ≤ b) :
    pyMax x xs ≤ b := by
  induction xs generalizing x with
  | nil => exact hx
  | cons z zs ih =>
    have hz : z ≤ b := hxs z (List.mem_cons_self z zs)
    exact ih (max_le hx hz) (fun y hy => hxs y (List.mem_cons_of_mem z hy))

/-! ## Sorted composite tables

The data model (spec §3) assumes each composite table is sorted strictly
ascending by `suma`; `valor` monotonicity is the premise of the
monotonicity claim. -/

abbrev Ordenada (datos : List Fila) : Prop :=
  List.Pairwise (fun a b => a.suma < b.suma) datos

abbrev ValoresMonotonos (datos : List Fila) : Prop :=
  List.Pairwise (fun a b => a.valor ≤ b.valor) datos

theorem suma_head_le {f0 : Fila} {resto : List Fila} (h : Ordenada (f0 :: resto)) :
    ∀ g ∈ f0 :: resto, f0.suma ≤ g.suma := by
  intro g hg
  rcases List.mem_cons.1 hg with rfl | hg'
  · exact le_refl _
  · exact le_of_lt ((List.pairwise_cons.1 h).1 g hg')

theorem suma_le_ultima {front : List Fila} {fila_ant fila_max : Fila}
    (h : Ordenada (front ++ [fila_ant, fila_max])) :
    ∀ g ∈ front ++ [fila_ant, fila_max], g.suma ≤ fila_max.suma := by
  replace h := List.pairwise_append.1 h
  intro g hg
  rcases List.mem_append.1 hg with hgf | hgr
  · exact le_of_lt (h.2.2 g hgf fila_max (by simp))
  · rcases List.mem_cons.1 hgr with rfl | hgr'
    · exact le_of_lt ((List.pairwise_cons.1 h.2.1).1 fila_max (by simp))
    · simp only [List.mem_singleton] at hgr'
      subst hgr'
      exact le_refl _

theorem valor_le_of_suma_le {datos : List Fila} (hs : Ordenada datos)
    (hv : ValoresMonotonos datos) {f g : Fila} (hf : f ∈ datos) (hg : g ∈ datos)
    (hfg : f.suma ≤ g.suma) : f.valor ≤ g.valor := by
  induction datos with
  | nil => cases hf
  | cons x t ih =>
    rcases List.mem_cons.1 hf with rfl | hf' <;> rcases List.mem_cons.1 hg with hgx | hg'
    · rw [hgx]
    · exact (List.pairwise_cons.1 hv).1 g hg'
    · subst hgx
      have := (List.pairwise_cons.1 hs).1 f hf'
      omega
    · exact ih (List.pairwise_cons.1 hs).2 (List.pairwise_cons.1 hv).2 hf' hg'

/-- In a strictly sorted table there is no row strictly between two
adjacent rows: any row with sum above `fi`'s is at or above `fj`'s. -/
theorem suma_salto {pre post : List Fila} {fi fj : Fila}
    (hs : Ordenada (pre ++ fi :: fj :: post)) :
    ∀ g ∈ pre ++ fi :: fj :: post, fi.suma < g.suma → fj.suma ≤ g.suma := by
  replace hs := List.pairwise_append.1 hs
  intro g hg hlt
  rcases List.mem_append.1 hg with hgf | hgr
  · have := hs.2.2 g hgf fi (by simp)
    omega
  · rcases List.mem_cons.1 hgr with rfl | hgr'
    · omega
    · rcases List.mem_cons.1 hgr' with rfl | hgr''
      · exact le_refl _
      · exact le_of_lt ((List.pairwise_cons.1 (List.pairwise_cons.1 hs.2.1).2).1 g hgr'')

/-- Mirror image of `suma_salto`: any row with sum below `fj`'s is at or
below `fi`'s. -/
theorem suma_salto' {pre post : List Fila} {fi fj : Fila}
    (hs : Ordenada (pre ++ fi :: fj :: post)) :
    ∀ g ∈ pre ++ fi :: fj :: post, g.suma < fj.suma → g.suma ≤ fi.suma := by
  replace hs := List.pairwise_append.1 hs
  intro g hg hlt
  rcases List.mem_append.1 hg with hgf | hgr
  · exact le_of_lt (hs.2.2 g hgf fi (by simp))
  · rcases List.mem_cons.1 hgr with rfl | hgr'
    · exact le_refl _
    · rcases List.mem_cons.1 hgr' with rfl | hgr''
      · omega
      · have := (List.pairwise_cons.1 (List.pairwise_cons.1 hs.2.1).2).1 g hgr''
        omega

theorem fila_unica {datos : List Fila} (hs : Ordenada datos) {f g : Fila}
    (hf : f ∈ datos) (hg : g ∈ datos) (h : f.suma = g.suma) : f = g := by
  induction datos with
  | nil => cases hf
  | cons x t ih =>
    rcases List.mem_cons.1 hf with rfl | hf' <;> rcases List.mem_cons.1 hg with hgx | hg'
    · rw [hgx]
    · have := (List.pairwise_cons.1 hs).1 g hg'
      omega
    · subst hgx
      have := (List.pairwise_cons.1 hs).1 f hf'
      omega
    · exact ih (List.pairwise_cons.1 hs).2 hf' hg'

theorem find_exacto {datos : List Fila} (hs : Ordenada datos) {fila : Fila} {s : Int}
    (hmem : fila ∈ datos) (heq : fila.suma = s) :
    datos.find? (fun f => f.suma == s) = some fila := by
  induction datos with
  | nil => cases hmem
  | cons x t ih =>
    rcases List.mem_cons.1 hmem with rfl | hmem'
    · exact List.find?_cons_of_pos t (by simp [heq])
    · have hx : x.suma < fila.suma := (List.pairwise_cons.1 hs).1 fila hmem'
      rw [List.find?_cons_of_neg t (by simp; omega)]
      exact ih (List.pairwise_cons.1 hs).2 hmem'

theorem find_ninguno {datos : List Fila} {s : Int}
    (h : ∀ f ∈ datos, f.suma ≠ s) :
    datos.find? (fun f => f.suma == s) = none := by
  exact List.find?_eq_none.2 (fun f hf => by simp [h f hf])

/-! ## Branch characterisation of `convertir_compuesto` on sorted tables -/

theorem convertir_exacto (nombre : String) {datos : List Fila} (hs : Ordenada datos)
    {fila : Fila} {s : Int} (hmem : fila ∈ datos) (heq : fila.suma = s) :
    convertir_compuesto nombre datos s =
      some { compuesto := fila.valor, percentil := fila.percentil,
             conf_90 := fila.conf_90, conf_95 := fila.conf_95, nombre_escala := nombre } := by
  unfold convertir_compuesto
  rw [find_exacto hs hmem heq]

theorem convertir_bajo (nombre : String) {f0 f1 : Fila} {resto : List Fila} {s : Int}
    (hs : Ordenada (f0 :: f1 :: resto)) (hlt : s < f0.suma) :
    convertir_compuesto nombre (f0 :: f1 :: resto) s =
      some (extrapolacionBaja nombre f0 f1 s) := by
  have hmin : ∀ g ∈ f0 :: f1 :: resto, f0.suma ≤ g.suma := suma_head_le hs
  have hfind : (f0 :: f1 :: resto).find? (fun f => f.suma == s) = none :=
    find_ninguno (fun f hf => by have := hmin f hf; omega)
  have hpm : s < pyMin f0.suma ((f1 :: resto).map Fila.suma) := by
    have h1 : f0.suma ≤ pyMin f0.suma ((f1 :: resto).map Fila.suma) :=
      le_pyMin (le_refl _) (by
        intro y hy
        rcases List.mem_map.1 hy with ⟨g, hg, rfl⟩
        exact hmin g (List.mem_cons_of_mem _ hg))
    omega
  have hne : ¬ f1.suma = f0.suma := by
    have := (List.pairwise_cons.1 hs).1 f1 (by simp)
    omega
  unfold convertir_compuesto
  rw [hfind]
  simp only [if_pos hpm, if_neg hne]

theorem convertir_alto (nombre : String) {front : List Fila} {fila_ant fila_max : Fila}
    {s : Int} (hs : Ordenada (front ++ [fila_ant, fila_max])) (hgt : fila_max.suma < s) :
    convertir_compuesto nombre (front ++ [fila_ant, fila_max]) s =
      some (extrapolacionAlta nombre fila_ant fila_max s) := by
  have hmaxmem : fila_max ∈ front ++ [fila_ant, fila_max] := by simp
  have hult : ∀ g ∈ front ++ [fila_ant, fila_max], g.suma ≤ fila_max.suma := suma_le_ultima hs
  have hfind : (front ++ [fila_ant, fila_max]).find? (fun f => f.suma == s) = none :=
    find_ninguno (fun f hf => by have := hult f hf; omega)
  obtain ⟨f0, resto, hdat⟩ :
      ∃ f0 resto, front ++ [fila_ant, fila_max] = f0 :: resto := by
    cases front with
    | nil => exact ⟨fila_ant, [fila_max], rfl⟩
    | cons x xs => exact ⟨x, xs ++ [fila_ant, fila_max], rfl⟩
  have hminle : ¬ (s < pyMin f0.suma (resto.map Fila.suma)) := by
    have h0 : pyMin f0.suma (resto.map Fila.suma) ≤ f0.suma := pyMin_le_head _ _
    have hf0 : f0 ∈ front ++ [fila_ant, fila_max] := by rw [hdat]; simp
    have := hult f0 hf0
    omega
  have hmax : pyMax f0.suma (resto.map Fila.suma) < s := by
    have hub : pyMax f0.suma (resto.map Fila.suma) ≤ fila_max.suma := by
      apply pyMax_le
      · exact hult f0 (by rw [hdat]; simp)
      · intro y hy
        rcases List.mem_map.1 hy with ⟨g, hg, rfl⟩
        exact hult g (by rw [hdat]; exact List.mem_cons_of_mem _ hg)
    omega
  have hrev : (f0 :: resto).reverse = fila_max :: fila_ant :: front.reverse := by
    rw [← hdat]
    simp
  have hne : ¬ fila_max.suma = fila_ant.suma := by
    have : fila_ant.suma < fila_max.suma := by
      replace hs := List.pairwise_append.1 hs
      exact (List.pairwise_cons.1 hs.2.1).1 fila_max (by simp)
    omega
  rw [hdat] at hfind ⊢
  unfold convertir_compuesto
  rw [hfind]
  simp only [if_neg hminle, if_pos hmax]
  rw [hrev]
  simp only [if_neg hne]

theorem buscarIntervalo_eq (nombre : String) {s : Int} (pre : List Fila) {fi fj : Fila}
    {post : List Fila} (hs : Ordenada (pre ++ fi :: fj :: post)) (h1 : fi.suma < s)
    (h2 : s < fj.suma) :
    buscarIntervalo nombre s (pre ++ fi :: fj :: post) =
      some (interpolacion nombre fi fj s) := by
  induction pre with
  | nil =>
    simp only [List.nil_append, buscarIntervalo]
    rw [if_pos ⟨le_of_lt h1, le_of_lt h2⟩]
  | cons p pre' ih =>
    have hs' : Ordenada (pre' ++ fi :: fj :: post) := (List.pairwise_cons.1 hs).2
    specialize ih hs'
    cases pre' with
    | nil =>
      simp only [List.cons_append, List.nil_append, buscarIntervalo]
      rw [if_neg (by intro hc; omega)]
      exact ih
    | cons p2 pre'' =>
      have hp2 : p2.suma < fi.suma := by
        replace hs := List.pairwise_append.1 hs
        exact hs.2.2 p2 (by simp) fi (by simp)
      simp only [List.cons_append, buscarIntervalo]
      rw [if_neg (by intro hc; omega)]
      exact ih

theorem convertir_interior (nombre : String) {pre post : List Fila} {fi fj : Fila} {s : Int}
    (hs : Ordenada (pre ++ fi :: fj :: post)) (h1 : fi.suma < s) (h2 : s < fj.suma) :
    convertir_compuesto nombre (pre ++ fi :: fj :: post) s =
      some (interpolacion nombre fi fj s) := by
  have hfj : fj ∈ pre ++ fi :: fj :: post := by simp
  have hfind : (pre ++ fi :: fj :: post).find? (fun f => f.suma == s) = none := by
    apply find_ninguno
    intro f hf hfs
    have := suma_salto hs f hf (by omega)
    omega
  obtain ⟨f0, resto, hdat⟩ :
      ∃ f0 resto, pre ++ fi :: fj :: post = f0 :: resto := by
    cases pre with
    | nil => exact ⟨fi, fj :: post, rfl⟩
    | cons x xs => exact ⟨x, xs ++ fi :: fj :: post, rfl⟩
  have hs0 : Ordenada (f0 :: resto) := hdat ▸ hs
  have hminle : ¬ (s < pyMin f0.suma (resto.map Fila.suma)) := by
    have h0 : pyMin f0.suma (resto.map Fila.suma) ≤ f0.suma := pyMin_le_head _ _
    have hfi0 : fi ∈ f0 :: resto := hdat ▸ (by simp : fi ∈ pre ++ fi :: fj :: post)
    have := suma_head_le hs0 fi hfi0
    omega
  have hmaxgt : ¬ (pyMax f0.suma (resto.map Fila.suma) < s) := by
    have hfj0 : fj ∈ f0 :: resto := hdat ▸ hfj
    have : fj.suma ≤ pyMax f0.suma (resto.map Fila.suma) := by
      rcases List.mem_cons.1 hfj0 with heq | hm
      · rw [← heq]
        exact head_le_pyMax _ _
      · exact mem_le_pyMax _ _ fj.suma (List.mem_map.2 ⟨fj, hm, rfl⟩)
    omega
  have hbi := buscarIntervalo_eq nombre pre hs h1 h2
  rw [hdat] at hfind hbi ⊢
  unfold convertir_compuesto
  rw [hfind]
  simp only [if_neg hminle, if_neg hmaxgt]
  rw [hbi]

/-! ## Bounds and monotonicity of the three arithmetic branches -/

theorem interpolacion_ge (nombre : String) {fi fj : Fila} {s : Int}
    (hab : fi.suma < fj.suma) (hvw : fi.valor ≤ fj.valor) (h1 : fi.suma ≤ s) :
    fi.valor ≤ (interpolacion nombre fi fj s).compuesto := by
  unfold interpolacion
  have hb : (0 : ℚ) < (fj.suma : ℚ) - (fi.suma : ℚ) := by
    rw [sub_pos]
    exact_mod_cast hab
  have hr0 : (0 : ℚ) ≤ ((s : ℚ) - (fi.suma : ℚ)) / ((fj.suma : ℚ) - (fi.suma : ℚ)) := by
    apply div_nonneg _ (le_of_lt hb)
    rw [sub_nonneg]
    exact_mod_cast h1
  have hv0 : (0 : ℚ) ≤ (fj.valor : ℚ) - (fi.valor : ℚ) := by
    rw [sub_nonneg]
    exact_mod_cast hvw
  apply int_le_pyRound
  nlinarith [mul_nonneg hr0 hv0]

theorem interpolacion_le (nombre : String) {fi fj : Fila} {s : Int}
    (hab : fi.suma < fj.suma) (hvw : fi.valor ≤ fj.valor) (h2 : s ≤ fj.suma) :
    (interpolacion nombre fi fj s).compuesto ≤ fj.valor := by
  unfold interpolacion
  have hb : (0 : ℚ) < (fj.suma : ℚ) - (fi.suma : ℚ) := by
    rw [sub_pos]
    exact_mod_cast hab
  have hr1 : ((s : ℚ) - (fi.suma : ℚ)) / ((fj.suma : ℚ) - (fi.suma : ℚ)) ≤ 1 := by
    rw [div_le_one hb]
    have : (s : ℚ) ≤ (fj.suma : ℚ) := by exact_mod_cast h2
    linarith
  have hv0 : (0 : ℚ) ≤ (fj.valor : ℚ) - (fi.valor : ℚ) := by
    rw [sub_nonneg]
    exact_mod_cast hvw
  apply pyRound_le_int
  nlinarith [mul_le_mul_of_nonneg_right hr1 hv0]

theorem interpolacion_mono (nombre : String) {fi fj : Fila} {s t : Int}
    (hab : fi.suma < fj.suma) (hvw : fi.valor ≤ fj.valor) (hst : s ≤ t) :
    (interpolacion nombre fi fj s).compuesto ≤ (interpolacion nombre fi fj t).compuesto := by
  unfold interpolacion
  have hb : (0 : ℚ) < (fj.suma : ℚ) - (fi.suma : ℚ) := by
    rw [sub_pos]
    exact_mod_cast hab
  have hv0 : (0 : ℚ) ≤ (fj.valor : ℚ) - (fi.valor : ℚ) := by
    rw [sub_nonneg]
    exact_mod_cast hvw
  apply pyRound_mono
  have hrs : ((s : ℚ) - (fi.suma : ℚ)) / ((fj.suma : ℚ) - (fi.suma : ℚ)) ≤
      ((t : ℚ) - (fi.suma : ℚ)) / ((fj.suma : ℚ) - (fi.suma : ℚ)) := by
    apply div_le_div_of_nonneg_right ?_ (le_of_lt hb)
    have : (s : ℚ) ≤ (t : ℚ) := by exact_mod_cast hst
    linarith
  nlinarith [mul_le_mul_of_nonneg_right hrs hv0]

theorem extrapolacionBaja_le (nombre : String) {f0 f1 : Fila} {s : Int}
    (hab : f0.suma < f1.suma) (hvw : f0.valor ≤ f1.valor) (hs0 : s ≤ f0.suma)
    (h40 : 40 ≤ f0.valor) :
    (extrapolacionBaja nombre f0 f1 s).compuesto ≤ f0.valor := by
  unfold extrapolacionBaja
  have hb : (0 : ℚ) < (f1.suma : ℚ) - (f0.suma : ℚ) := by
    rw [sub_pos]
    exact_mod_cast hab
  have hp0 : (0 : ℚ) ≤ ((f1.valor : ℚ) - (f0.valor : ℚ)) / ((f1.suma : ℚ) - (f0.suma : ℚ)) := by
    apply div_nonneg _ (le_of_lt hb)
    rw [sub_nonneg]
    exact_mod_cast hvw
  have hs0' : (s : ℚ) - (f0.suma : ℚ) ≤ 0 := by
    rw [sub_nonpos]
    exact_mod_cast hs0
  have hA : pyRound ((f0.valor : ℚ) +
      ((f1.valor : ℚ) - (f0.valor : ℚ)) / ((f1.suma : ℚ) - (f0.suma : ℚ)) *
        ((s : ℚ) - (f0.suma : ℚ))) ≤ f0.valor := by
    apply pyRound_le_int
    nlinarith [mul_nonpos_of_nonneg_of_nonpos hp0 hs0']
  exact max_le (by omega) (le_trans (min_le_right _ _) hA)

theorem extrapolacionBaja_mono (nombre : String) {f0 f1 : Fila} {s t : Int}
    (hab : f0.suma < f1.suma) (hvw : f0.valor ≤ f1.valor) (hst : s ≤ t) :
    (extrapolacionBaja nombre f0 f1 s).compuesto ≤ (extrapolacionBaja nombre f0 f1 t).compuesto := by
  unfold extrapolacionBaja
  apply max_le_max (le_refl _)
  apply min_le_min (le_refl _)
  apply pyRound_mono
  have hb : (0 : ℚ) < (f1.suma : ℚ) - (f0.suma : ℚ) := by
    rw [sub_pos]
    exact_mod_cast hab
  have hp0 : (0 : ℚ) ≤ ((f1.valor : ℚ) - (f0.valor : ℚ)) / ((f1.suma : ℚ) - (f0.suma : ℚ)) := by
    apply div_nonneg _ (le_of_lt hb)
    rw [sub_nonneg]
    exact_mod_cast hvw
  have hst' : (s : ℚ) - (f0.suma : ℚ) ≤ (t : ℚ) - (f0.suma : ℚ) := by
    have : (s : ℚ) ≤ (t : ℚ) := by exact_mod_cast hst
    linarith
  nlinarith [mul_le_mul_of_nonneg_left hst' hp0]

theorem extrapolacionAlta_ge (nombre : String) (fila_ant fila_max : Fila) (s : Int) :
    fila_max.valor ≤ (extrapolacionAlta nombre fila_ant fila_max s).compuesto :=
  le_max_left _ _

theorem extrapolacionAlta_mono (nombre : String) {fila_ant fila_max : Fila} {s t : Int}
    (hab : fila_ant.suma < fila_max.suma) (hvw : fila_ant.valor ≤ fila_max.valor)
    (hst : s ≤ t) :
    (extrapolacionAlta nombre fila_ant fila_max s).compuesto ≤
      (extrapolacionAlta nombre fila_ant fila_max t).compuesto := by
  unfold extrapolacionAlta
  apply max_le_max (le_refl _)
  apply min_le_min (le_refl _)
  apply pyRound_mono
  have hb : (0 : ℚ) < (fila_max.suma : ℚ) - (fila_ant.suma : ℚ) := by
    rw [sub_pos]
    exact_mod_cast hab
  have hp0 : (0 : ℚ) ≤
      ((fila_max.valor : ℚ) - (fila_ant.valor : ℚ)) / ((fila_max.suma : ℚ) - (fila_ant.suma : ℚ)) *
        (7 / 10) := by
    apply mul_nonneg _ (by norm_num)
    apply div_nonneg _ (le_of_lt hb)
    rw [sub_nonneg]
    exact_mod_cast hvw
  have hst' : (s : ℚ) - (fila_max.suma : ℚ) ≤ (t : ℚ) - (fila_max.suma : ℚ) := by
    have : (s : ℚ) ≤ (t : ℚ) := by exact_mod_cast hst
    linarith
  nlinarith [mul_le_mul_of_nonneg_left hst' hp0]

/-! ## Region classification and global bounds -/

theorem clasificar {s : Int} : ∀ (l : List Fila), Ordenada l →
    (∃ x ∈ l, x.suma ≤ s) → (∃ y ∈ l, s ≤ y.suma) →
    (∃ fila ∈ l, fila.suma = s) ∨
      (∃ pre fi fj post, l = pre ++ fi :: fj :: post ∧ fi.suma < s ∧ s < fj.suma) := by
  intro l
  induction l with
  | nil =>
    rintro _ ⟨x, hx, _⟩ _
    cases hx
  | cons a t ih =>
    rintro hs ⟨x, hx, hxs⟩ ⟨y, hy, hys⟩
    by_cases hsa : a.suma = s
    · exact Or.inl ⟨a, List.mem_cons_self a t, hsa⟩
    have has : a.suma < s := by
      rcases List.mem_cons.1 hx with rfl | hx'
      · omega
      · have := (List.pairwise_cons.1 hs).1 x hx'
        omega
    have hyt : y ∈ t := by
      rcases List.mem_cons.1 hy with rfl | hy'
      · omega
      · exact hy'
    cases t with
    | nil => cases hyt
    | cons b t' =>
      rcases lt_trichotomy s b.suma with hlt | heq | hgt
      · exact Or.inr ⟨[], a, b, t', rfl, has, hlt⟩
      · exact Or.inl ⟨b, List.mem_cons_of_mem a (List.mem_cons_self b t'), heq.symm⟩
      · rcases ih (List.pairwise_cons.1 hs).2
            ⟨b, List.mem_cons_self b t', le_of_lt hgt⟩ ⟨y, hyt, hys⟩ with
          ⟨fila, hm, hsum⟩ | ⟨pre, fi, fj, post, hdec, hh1, hh2⟩
        · exact Or.inl ⟨fila, List.mem_cons_of_mem a hm, hsum⟩
        · exact Or.inr ⟨a :: pre, fi, fj, post, by rw [List.cons_append, ← hdec], hh1, hh2⟩

theorem descomposicion_primeros {datos : List Fila} (h2 : 2 ≤ datos.length) :
    ∃ f0 f1 resto, datos = f0 :: f1 :: resto := by
  rcases datos with _ | ⟨f0, _ | ⟨f1, resto⟩⟩
  · simp at h2
  · simp at h2
  · exact ⟨f0, f1, resto, rfl⟩

theorem descomposicion_ultimos {datos : List Fila} (h2 : 2 ≤ datos.length) :
    ∃ front fant fmax, datos = front ++ [fant, fmax] := by
  obtain ⟨x, y, t, hrev⟩ : ∃ x y t, datos.reverse = x :: y :: t := by
    have hl : datos.reverse.length = datos.length := List.length_reverse datos
    rcases hr : datos.reverse with _ | ⟨x, _ | ⟨y, t⟩⟩ <;> rw [hr] at hl
    · simp at hl; omega
    · simp at hl; omega
    · exact ⟨x, y, t, rfl⟩
  refine ⟨t.reverse, y, x, ?_⟩
  rw [← List.reverse_reverse datos, hrev]
  simp

/-- Upper bound: when `s` does not land in the above-maximum branch, the
result is at most the value of any row whose sum is at least `s`. -/
theorem cota_superior (nombre : String) {datos : List Fila} {f0 f1 : Fila}
    {resto0 front : List Fila} {fant fmax : Fila} {s : Int} {r : Resultado}
    (hs : Ordenada datos) (hv : ValoresMonotonos datos)
    (h40 : ∀ f ∈ datos, 40 ≤ f.valor)
    (hd0 : datos = f0 :: f1 :: resto0) (hd1 : datos = front ++ [fant, fmax])
    (hle : s ≤ fmax.suma) (e : convertir_compuesto nombre datos s = some r) :
    ∀ g ∈ datos, s ≤ g.suma → r.compuesto ≤ g.valor := by
  intro g hg hsg
  have hf0 : f0 ∈ datos := by rw [hd0]; simp
  have hfmax : fmax ∈ datos := by rw [hd1]; simp
  rcases lt_or_le s f0.suma with hB | hge
  · -- below-minimum branch
    have heq := convertir_bajo nombre (hd0 ▸ hs) hB
    rw [hd0] at e
    rw [heq] at e
    have hr := Option.some.inj e
    have hab : f0.suma < f1.suma := (List.pairwise_cons.1 (hd0 ▸ hs)).1 f1 (by simp)
    have hvw : f0.valor ≤ f1.valor := (List.pairwise_cons.1 (hd0 ▸ hv)).1 f1 (by simp)
    have hub : r.compuesto ≤ f0.valor := by
      rw [← hr]
      exact extrapolacionBaja_le nombre hab hvw (le_of_lt hB) (h40 f0 hf0)
    have : f0.valor ≤ g.valor :=
      valor_le_of_suma_le hs hv hf0 hg (suma_head_le (hd0 ▸ hs) g (hd0 ▸ hg))
    omega
  · rcases clasificar datos hs ⟨f0, hf0, hge⟩ ⟨fmax, hfmax, hle⟩ with
      ⟨fila, hm, hsum⟩ | ⟨pre, fi, fj, post, hdec, hh1, hh2⟩
    · -- exact-match branch
      have heq := convertir_exacto nombre hs hm hsum
      rw [heq] at e
      have hr := Option.some.inj e
      have : fila.valor ≤ g.valor :=
        valor_le_of_suma_le hs hv hm hg (by omega)
      rw [← hr]
      exact this
    · -- interior branch
      have heq := convertir_interior nombre (hdec ▸ hs) hh1 hh2
      rw [hdec] at e
      rw [heq] at e
      have hr := Option.some.inj e
      have hfj : fj ∈ datos := by rw [hdec]; simp
      have hab : fi.suma < fj.suma := by omega
      have hfi : fi ∈ datos := by rw [hdec]; simp
      have hvw : fi.valor ≤ fj.valor := valor_le_of_suma_le hs hv hfi hfj (le_of_lt hab)
      have hub : r.compuesto ≤ fj.valor := by
        rw [← hr]
        exact interpolacion_le nombre hab hvw (le_of_lt hh2)
      have hsalto : fj.suma ≤ g.suma :=
        suma_salto (hdec ▸ hs) g (hdec ▸ hg) (by omega)
      have : fj.valor ≤ g.valor := valor_le_of_suma_le hs hv hfj hg hsalto
      omega

/-- Lower bound: when `s` does not land in the below-minimum branch, the
result is at least the value of any row whose sum is at most `s`. -/
theorem cota_inferior (nombre : String) {datos : List Fila} {f0 f1 : Fila}
    {resto0 front : List Fila} {fant fmax : Fila} {s : Int} {r : Resultado}
    (hs : Ordenada datos) (hv : ValoresMonotonos datos)
    (hd0 : datos = f0 :: f1 :: resto0) (hd1 : datos = front ++ [fant, fmax])
    (hge : f0.suma ≤ s) (e : convertir_compuesto nombre datos s = some r) :
    ∀ g ∈ datos, g.suma ≤ s → g.valor ≤ r.compuesto := by
  intro g hg hgs
  have hf0 : f0 ∈ datos := by rw [hd0]; simp
  have hfmax : fmax ∈ datos := by rw [hd1]; simp
  rcases le_or_lt s fmax.suma with hle | hA
  · rcases clasificar datos hs ⟨f0, hf0, hge⟩ ⟨fmax, hfmax, hle⟩ with
      ⟨fila, hm, hsum⟩ | ⟨pre, fi, fj, post, hdec, hh1, hh2⟩
    · have heq := convertir_exacto nombre hs hm hsum
      rw [heq] at e
      have hr := Option.some.inj e
      have : g.valor ≤ fila.valor := valor_le_of_suma_le hs hv hg hm (by omega)
      rw [← hr]
      exact this
    · have heq := convertir_interior nombre (hdec ▸ hs) hh1 hh2
      rw [hdec] at e
      rw [heq] at e
      have hr := Option.some.inj e
      have hfi : fi ∈ datos := by rw [hdec]; simp
      have hfj : fj ∈ datos := by rw [hdec]; simp
      have hab : fi.suma < fj.suma := by omega
      have hvw : fi.valor ≤ fj.valor := valor_le_of_suma_le hs hv hfi hfj (le_of_lt hab)
      have hlb : fi.valor ≤ r.compuesto := by
        rw [← hr]
        exact interpolacion_ge nombre hab hvw (le_of_lt hh1)
      have hsalto : g.suma ≤ fi.suma :=
        suma_salto' (hdec ▸ hs) g (hdec ▸ hg) (by omega)
      have : g.valor ≤ fi.valor := valor_le_of_suma_le hs hv hg hfi hsalto
      omega
  · -- above-maximum branch
    have heq := convertir_alto nombre (hd1 ▸ hs) hA
    rw [hd1] at e
    rw [heq] at e
    have hr := Option.some.inj e
    have hlb : fmax.valor ≤ r.compuesto := by
      rw [← hr]
      exact extrapolacionAlta_ge nombre fant fmax s
    have : g.valor ≤ fmax.valor :=
      valor_le_of_suma_le hs hv hg hfmax (suma_le_ultima (hd1 ▸ hs) g (hd1 ▸ hg))
    omega

/-- C4 (amended): on a composite table with at least two rows, sorted
strictly ascending by sum, with non-decreasing composite values all at
least 40, the composite returned by `convertir_compuesto` is monotone
non-decreasing in the scaled sum, across the exact-match, interpolation
and both extrapolation branches. -/
theorem convertir_compuesto_monotono
    (nombre : String) (datos : List Fila) (h2 : 2 ≤ datos.length)
    (hs : Ordenada datos) (hv : ValoresMonotonos datos)
    (h40 : ∀ f ∈ datos, 40 ≤ f.valor)
    (s1 s2 : Int) (h12 : s1 ≤ s2) (r1 r2 : Resultado)
    (e1 : convertir_compuesto nombre datos s1 = some r1)
    (e2 : convertir_compuesto nombre datos s2 = some r2) :
    r1.compuesto ≤ r2.compuesto := by
  obtain ⟨f0, f1, resto0, hd0⟩ := descomposicion_primeros h2
  obtain ⟨front, fant, fmax, hd1⟩ := descomposicion_ultimos h2
  have hf0 : f0 ∈ datos := by rw [hd0]; simp
  have hfmax : fmax ∈ datos := by rw [hd1]; simp
  have hab01 : f0.suma < f1.suma := (List.pairwise_cons.1 (hd0 ▸ hs)).1 f1 (by simp)
  have hvw01 : f0.valor ≤ f1.valor := (List.pairwise_cons.1 (hd0 ▸ hv)).1 f1 (by simp)
  have habam : fant.suma < fmax.suma := by
    have := List.pairwise_append.1 (hd1 ▸ hs)
    exact (List.pairwise_cons.1 this.2.1).1 fmax (by simp)
  have hfant : fant ∈ datos := by rw [hd1]; simp
  have hvwam : fant.valor ≤ fmax.valor :=
    valor_le_of_suma_le hs hv hfant hfmax (le_of_lt habam)
  rcases lt_or_le fmax.suma s1 with hA1 | hle1
  · -- both sums extrapolate above the maximum
    have hA2 : fmax.suma < s2 := lt_of_lt_of_le hA1 h12
    have he1 := convertir_alto nombre (hd1 ▸ hs) hA1
    have he2 := convertir_alto nombre (hd1 ▸ hs) hA2
    rw [hd1] at e1 e2
    rw [he1] at e1
    rw [he2] at e2
    rw [← Option.some.inj e1, ← Option.some.inj e2]
    exact extrapolacionAlta_mono nombre habam hvwam h12
  · rcases lt_or_le fmax.suma s2 with hA2 | hle2
    · -- only the larger sum extrapolates above
      have he2 := convertir_alto nombre (hd1 ▸ hs) hA2
      rw [hd1] at e2
      rw [he2] at e2
      have hub := cota_superior nombre hs hv h40 hd0 hd1 hle1 e1 fmax hfmax hle1
      have hlb : fmax.valor ≤ r2.compuesto := by
        rw [← Option.some.inj e2]
        exact extrapolacionAlta_ge nombre fant fmax s2
      omega
    · rcases lt_or_le s2 f0.suma with hB2 | hge2
      · -- both sums extrapolate below the minimum
        have hB1 : s1 < f0.suma := lt_of_le_of_lt h12 hB2
        have he1 := convertir_bajo nombre (hd0 ▸ hs) hB1
        have he2 := convertir_bajo nombre (hd0 ▸ hs) hB2
        rw [hd0] at e1 e2
        rw [he1] at e1
        rw [he2] at e2
        rw [← Option.some.inj e1, ← Option.some.inj e2]
        exact extrapolacionBaja_mono nombre hab01 hvw01 h12
      · rcases lt_or_le s1 f0.suma with hB1 | hge1
        · -- only the smaller sum extrapolates below
          have hub := cota_superior nombre hs hv h40 hd0 hd1 hle1 e1 f0 hf0 (le_of_lt hB1)
          have hlb := cota_inferior nombre hs hv hd0 hd1 hge2 e2 f0 hf0 hge2
          omega
        · -- both sums are inside the tabulated range
          rcases clasificar datos hs ⟨f0, hf0, hge1⟩ ⟨fmax, hfmax, hle1⟩ with
            ⟨fila1, hm1, hsum1⟩ | ⟨pre1, fi1, fj1, post1, hdec1, hi1, hj1⟩
          · have he1 := convertir_exacto nombre hs hm1 hsum1
            rw [he1] at e1
            have hr1 := Option.some.inj e1
            have hlb := cota_inferior nombre hs hv hd0 hd1 hge2 e2 fila1 hm1 (by omega)
            rw [← hr1]
            exact hlb
          · have habij : fi1.suma < fj1.suma := by omega
            have hfi1 : fi1 ∈ datos := by rw [hdec1]; simp
            have hfj1 : fj1 ∈ datos := by rw [hdec1]; simp
            have hvwij : fi1.valor ≤ fj1.valor :=
              valor_le_of_suma_le hs hv hfi1 hfj1 (le_of_lt habij)
            have he1 := convertir_interior nombre (hdec1 ▸ hs) hi1 hj1
            rw [hdec1] at e1
            rw [he1] at e1
            have hr1 := Option.some.inj e1
            rcases le_or_lt fj1.suma s2 with hge' | hlt'
            · have hub : r1.compuesto ≤ fj1.valor := by
                rw [← hr1]
                exact interpolacion_le nombre habij hvwij (le_of_lt hj1)
              have hlb := cota_inferior nombre hs hv hd0 hd1 hge2 e2 fj1 hfj1 hge'
              omega
            · -- the larger sum falls in the same bracket
              rcases clasificar datos hs ⟨f0, hf0, hge2⟩ ⟨fmax, hfmax, hle2⟩ with
                ⟨fila2, hm2, hsum2⟩ | ⟨pre2, fi2, fj2, post2, hdec2, hi2, hj2⟩
              · exfalso
                have := suma_salto (hdec1 ▸ hs) fila2 (hdec1 ▸ hm2) (by omega)
                omega
              · have hfi2 : fi2 ∈ datos := by rw [hdec2]; simp
                have hfj2 : fj2 ∈ datos := by rw [hdec2]; simp
                have ha1 : fi2.suma ≤ fi1.suma :=
                  suma_salto' (hdec1 ▸ hs) fi2 (hdec1 ▸ hfi2) (by omega)
                have ha2 : fi1.suma ≤ fi2.suma :=
                  suma_salto' (hdec2 ▸ hs) fi1 (hdec2 ▸ hfi1) (by omega)
                have hfieq : fi1 = fi2 := fila_unica hs hfi1 hfi2 (by omega)
                have hb1 : fj2.suma ≤ fj1.suma :=
                  suma_salto (hdec2 ▸ hs) fj1 (hdec2 ▸ hfj1) (by omega)
                have hb2 : fj1.suma ≤ fj2.suma :=
                  suma_salto (hdec1 ▸ hs) fj2 (hdec1 ▸ hfj2) (by omega)
                have hfjeq : fj1 = fj2 := fila_unica hs hfj1 hfj2 (by omega)
                have he2 := convertir_interior nombre (hdec2 ▸ hs) hi2 hj2
                rw [hdec2] at e2
                rw [he2] at e2
                have hr2 := Option.some.inj e2
                rw [← hr1, ← hr2, ← hfieq, ← hfjeq]
                exact interpolacion_mono nombre habij hvwij h12

/-! ## Claim theorems about the composite converter -/

/-- C1 (amended): on a sorted composite table with at least two rows, for a
scaled sum strictly above the largest tabulated sum, `convertir_compuesto`
returns the last row's value plus 70% of the slope between the last two
rows times the excess, rounded, then capped at 160 and floored at the last
row's value; both confidence intervals come from the last row, and the
percentile is carried from the last row unless it contains "99.9", in
which case the tail marker ">99.9" is returned (an exact ">99.9" is thus
preserved as-is).  The composite is at least the last row's value, and at
most 160 whenever the last row's value is at most 160. -/
theorem convertir_compuesto_sobre_maximo
    (nombre : String) (front : List Fila) (fant fmax : Fila) (s : Int)
    (hs : Ordenada (front ++ [fant, fmax])) (hgt : fmax.suma < s) :
    ∃ c : Int,
      convertir_compuesto nombre (front ++ [fant, fmax]) s =
        some { compuesto := c,
               percentil := if contieneSub "99.9".data fmax.percentil.data then ">99.9"
                 else fmax.percentil,
               conf_90 := fmax.conf_90, conf_95 := fmax.conf_95, nombre_escala := nombre } ∧
      c = max fmax.valor (min 160 (pyRound ((fmax.valor : ℚ) +
            (7 / 10 : ℚ) * (((fmax.valor : ℚ) - (fant.valor : ℚ)) /
              ((fmax.suma : ℚ) - (fant.suma : ℚ))) * ((s : ℚ) - (fmax.suma : ℚ))))) ∧
      fmax.valor ≤ c ∧ (fmax.valor ≤ 160 → c ≤ 160) := by
  refine ⟨(extrapolacionAlta nombre fant fmax s).compuesto, ?_, ?_, ?_, ?_⟩
  · exact convertir_alto nombre hs hgt
  · show max _ _ = max _ _
    exact congrArg (fun z => max fmax.valor (min 160 z)) (congrArg pyRound (by ring))
  · exact extrapolacionAlta_ge nombre fant fmax s
  · intro h160
    exact max_le h160 (min_le_left _ _)

/-- C2: on a sorted composite table, a scaled sum equal to some row's sum
returns that row's literal composite, percentile and confidence intervals;
a scaled sum strictly between two adjacent rows' sums returns the rounded
linear interpolation of the composite between the bracketing rows, with
percentile and both confidence intervals taken from the lower bracketing
row. -/
theorem convertir_compuesto_en_rango (nombre : String) :
    (∀ (datos : List Fila) (fila : Fila) (s : Int), Ordenada datos → fila ∈ datos →
      fila.suma = s →
      convertir_compuesto nombre datos s =
        some { compuesto := fila.valor, percentil := fila.percentil,
               conf_90 := fila.conf_90, conf_95 := fila.conf_95, nombre_escala := nombre }) ∧
    (∀ (pre post : List Fila) (fi fj : Fila) (s : Int),
      Ordenada (pre ++ fi :: fj :: post) → fi.suma < s → s < fj.suma →
      convertir_compuesto nombre (pre ++ fi :: fj :: post) s =
        some { compuesto := pyRound ((fi.valor : ℚ) +
                 ((s : ℚ) - (fi.suma : ℚ)) / ((fj.suma : ℚ) - (fi.suma : ℚ)) *
                   ((fj.valor : ℚ) - (fi.valor : ℚ))),
               percentil := fi.percentil, conf_90 := fi.conf_90, conf_95 := fi.conf_95,
               nombre_escala := nombre }) := by
  constructor
  · intro datos fila s hs hm he
    exact convertir_exacto nombre hs hm he
  · intro pre post fi fj s hs h1 h2
    exact convertir_interior nombre hs h1 h2

/-- C3: on a sorted composite table with at least two rows, for a scaled
sum strictly below the smallest tabulated sum, `convertir_compuesto`
extrapolates linearly with the slope between the first two rows, clamps
the rounded result to [40, 160], and takes percentile and both confidence
intervals from the lowest row. -/
theorem convertir_compuesto_bajo_minimo
    (nombre : String) (f0 f1 : Fila) (resto : List Fila) (s : Int)
    (hs : Ordenada (f0 :: f1 :: resto)) (hlt : s < f0.suma) :
    ∃ c : Int,
      convertir_compuesto nombre (f0 :: f1 :: resto) s =
        some { compuesto := c, percentil := f0.percentil,
               conf_90 := f0.conf_90, conf_95 := f0.conf_95, nombre_escala := nombre } ∧
      c = max 40 (min 160 (pyRound ((f0.valor : ℚ) +
            ((f1.valor : ℚ) - (f0.valor : ℚ)) / ((f1.suma : ℚ) - (f0.suma : ℚ)) *
              ((s : ℚ) - (f0.suma : ℚ))))) ∧
      40 ≤ c ∧ c ≤ 160 := by
  refine ⟨(extrapolacionBaja nombre f0 f1 s).compuesto, ?_, rfl, ?_, ?_⟩
  · exact convertir_bajo nombre hs hlt
  · exact le_max_left _ _
  · exact max_le (by norm_num) (min_le_left _ _)

/-- A two-row composite table used to exercise the converter's branches. -/
def tablaEjemplo : List Fila :=
  [{ suma := 10, valor := 100, percentil := "50", conf_90 := "90-108", conf_95 := "88-110" },
   { suma := 12, valor := 106, percentil := "60", conf_90 := "96-114", conf_95 := "94-116" }]

/-- A sorted table whose last row's percentile is the string "99.9"
(without the ">" marker). -/
def tablaCola : List Fila :=
  [{ suma := 10, valor := 100, percentil := "50", conf_90 := "90-108", conf_95 := "88-110" },
   { suma := 12, valor := 110, percentil := "99.9", conf_90 := "99-117", conf_95 := "97-119" }]

/-- A sorted table with non-decreasing composite values below 40. -/
def tablaContra : List Fila :=
  [{ suma := 10, valor := 30, percentil := "1", conf_90 := "20-40", conf_95 := "18-42" },
   { suma := 12, valor := 32, percentil := "2", conf_90 := "22-42", conf_95 := "20-44" }]

theorem convertir_compuesto_sobre_maximo_testigo :
    (convertir_compuesto "IFL" tablaCola 13).map Resultado.compuesto = some 114 := by
  obtain ⟨c, hc, hceq, _, _⟩ :=
    convertir_compuesto_sobre_maximo "IFL" []
      { suma := 10, valor := 100, percentil := "50", conf_90 := "90-108", conf_95 := "88-110" }
      { suma := 12, valor := 110, percentil := "99.9", conf_90 := "99-117", conf_95 := "97-119" }
      13 (by decide) (by decide)
  have hc' : convertir_compuesto "IFL" tablaCola 13 =
      some { compuesto := c, percentil := ">99.9", conf_90 := "99-117", conf_95 := "97-119",
             nombre_escala := "IFL" } := by
    rw [show tablaCola = [] ++
        [{ suma := 10, valor := 100, percentil := "50", conf_90 := "90-108", conf_95 := "88-110" },
         { suma := 12, valor := 110, percentil := "99.9", conf_90 := "99-117", conf_95 := "97-119" }]
      from rfl]
    rw [hc]
    norm_num [contieneSub, listaEsPrefijo]
  rw [hc']
  have : c = 114 := by
    rw [hceq]
    norm_num [pyRound]
  rw [this]
  rfl

theorem convertir_compuesto_en_rango_testigo :
    convertir_compuesto "ICV" tablaEjemplo 10 =
      some { compuesto := 100, percentil := "50", conf_90 := "90-108", conf_95 := "88-110",
             nombre_escala := "ICV" } ∧
    convertir_compuesto "ICV" tablaEjemplo 11 =
      some { compuesto := 103, percentil := "50", conf_90 := "90-108", conf_95 := "88-110",
             nombre_escala := "ICV" } := by
  have h := convertir_compuesto_en_rango "ICV"
  constructor
  · exact h.1 tablaEjemplo
      { suma := 10, valor := 100, percentil := "50", conf_90 := "90-108", conf_95 := "88-110" }
      10 (by decide) (by decide) rfl
  · have h2 := h.2 [] []
      { suma := 10, valor := 100, percentil := "50", conf_90 := "90-108", conf_95 := "88-110" }
      { suma := 12, valor := 106, percentil := "60", conf_90 := "96-114", conf_95 := "94-116" }
      11 (by decide) (by decide) (by decide)
    refine Eq.trans h2 ?_
    norm_num [pyRound]

theorem convertir_compuesto_bajo_minimo_testigo :
    (convertir_compuesto "ICV" tablaEjemplo 9).map Resultado.compuesto = some 97 := by
  obtain ⟨c, hc, hceq, _, _⟩ :=
    convertir_compuesto_bajo_minimo "ICV"
      { suma := 10, valor := 100, percentil := "50", conf_90 := "90-108", conf_95 := "88-110" }
      { suma := 12, valor := 106, percentil := "60", conf_90 := "96-114", conf_95 := "94-116" }
      [] 9 (by decide) (by decide)
  have : c = 97 := by
    rw [hceq]
    norm_num [pyRound]
  rw [show tablaEjemplo =
      { suma := 10, valor := 100, percentil := "50", conf_90 := "90-108", conf_95 := "88-110" } ::
      { suma := 12, valor := 106, percentil := "60", conf_90 := "96-114", conf_95 := "94-116" } ::
      ([] : List Fila) from rfl]
  rw [hc, this]
  rfl

theorem convertir_compuesto_monotono_testigo :
    (Resultado.mk 97 "50" "90-108" "88-110" "ICV").compuesto ≤
      (Resultado.mk 108 "60" "96-114" "94-116" "ICV").compuesto := by
  refine convertir_compuesto_monotono "ICV" tablaEjemplo (by decide) (by decide) (by decide)
    (by decide) 9 13 (by norm_num) _ _ ?_ ?_
  · show convertir_compuesto "ICV" tablaEjemplo 9 = some _
    simp [convertir_compuesto, tablaEjemplo, extrapolacionBaja, pyMin, pyMax, List.find?]
    norm_num [pyRound]
  · show convertir_compuesto "ICV" tablaEjemplo 13 = some _
    simp [convertir_compuesto, tablaEjemplo, extrapolacionAlta, pyMin, pyMax, List.find?,
      contieneSub, listaEsPrefijo]
    norm_num [pyRound]

/-- C1 as stated is false: with a last row whose percentile is "99.9", the
result's percentile above the maximum is the marker ">99.9", not the last
row's percentile carried over. -/
theorem convertir_compuesto_sobre_maximo_contraejemplo :
    Ordenada tablaCola ∧ tablaCola.getLast (by decide) =
      { suma := 12, valor := 110, percentil := "99.9", conf_90 := "99-117", conf_95 := "97-119" } ∧
    (12 : Int) < 13 ∧
    (convertir_compuesto "IFL" tablaCola 13).map Resultado.percentil = some ">99.9" ∧
    ¬ ((">99.9" : String) = "99.9") := by
  refine ⟨by decide, by decide, by decide, ?_, by decide⟩
  simp [convertir_compuesto, tablaCola, extrapolacionAlta, pyMin, pyMax, List.find?,
    contieneSub, listaEsPrefijo]

/-- C4 as stated is false: with composite values below 40, the below-minimum
clamp `max(40, ...)` produces a composite strictly above the one returned
for a larger scaled sum. -/
theorem convertir_compuesto_monotono_contraejemplo :
    Ordenada tablaContra ∧ ValoresMonotonos tablaContra ∧ (9 : Int) ≤ 10 ∧
    (convertir_compuesto "IVP" tablaContra 9).map Resultado.compuesto = some 40 ∧
    (convertir_compuesto "IVP" tablaContra 10).map Resultado.compuesto = some 30 ∧
    ¬ ((40 : Int) ≤ 30) := by
  refine ⟨by decide, by decide, by decide, ?_, ?_, by decide⟩
  · simp [convertir_compuesto, tablaContra, extrapolacionBaja, pyMin, pyMax, List.find?]
    norm_num [pyRound]
  · simp [convertir_compuesto, tablaContra, List.find?]

/-! ## CIT converter (`ConversorCIT.convertir_cit`, main.py 548-598, and
`WiscVApp.calcular_escala_total_cit`, main.py 2309-2349) -/

/-- A row of the CIT table (`wisc_v_cit.json`'s `datos`). -/
structure FilaCIT where
  suma : Int
  cit : Int
  percentil : String
  conf_90 : String
  conf_95 : String
deriving DecidableEq, Repr

/-- The dict returned by `convertir_cit`. -/
structure ResultadoCIT where
  compuesto : Int
  percentil : String
  conf_90 : String
  conf_95 : String
deriving DecidableEq, Repr

/-- main.py 574-587: interpolation between two bracketing CIT rows. -/
def interpolacionCIT (fila_inf fila_sup : FilaCIT) (suma_escalar : Int) : ResultadoCIT :=
  let razon : ℚ := ((suma_escalar : ℚ) - (fila_inf.suma : ℚ)) / ((fila_sup.suma : ℚ) - (fila_inf.suma : ℚ))
  let valor : ℚ := (fila_inf.cit : ℚ) + razon * ((fila_sup.cit : ℚ) - (fila_inf.cit : ℚ))
  { compuesto := pyRound valor, percentil := fila_inf.percentil,
    conf_90 := fila_inf.conf_90, conf_95 := fila_inf.conf_95 }

/-- main.py 574-587: scan for the first bracketing pair of adjacent CIT
rows; `none` when the loop falls through (the Python code would then hit
an unbound `fila` and raise). -/
def buscarIntervaloCIT (suma_escalar : Int) : List FilaCIT → Option ResultadoCIT
  | fila_inf :: fila_sup :: resto =>
    if fila_inf.suma ≤ suma_escalar ∧ suma_escalar ≤ fila_sup.suma then
      some (interpolacionCIT fila_inf fila_sup suma_escalar)
    else buscarIntervaloCIT suma_escalar (fila_sup :: resto)
  | _ => none

/-- main.py 548-598, `ConversorCIT.convertir_cit`: `datos` is
`tabla_cit['datos']`; `none` models the `ValueError` on an empty table and
the unbound-`fila` error on an unsorted fallthrough. -/
def convertir_cit (datos : List FilaCIT) (suma_escalar : Int) : Option ResultadoCIT :=
  match datos with
  | [] => none
  | f0 :: resto =>
    match (f0 :: resto).find? (fun fila => fila.suma == suma_escalar) with
    | some fila => some ⟨fila.cit, fila.percentil, fila.conf_90, fila.conf_95⟩
    | none =>
      if suma_escalar < pyMin f0.suma (resto.map FilaCIT.suma) then
        some ⟨f0.cit, f0.percentil, f0.conf_90, f0.conf_95⟩
      else if pyMax f0.suma (resto.map FilaCIT.suma) < suma_escalar then
        let fila := (f0 :: resto).getLast (List.cons_ne_nil f0 resto)
        some ⟨fila.cit, fila.percentil, fila.conf_90, fila.conf_95⟩
      else
        buscarIntervaloCIT suma_escalar (f0 :: resto)

/-- main.py 2312: the 7 subtests whose scaled scores form the CIT sum. -/
def subpruebas_principales : List String := ["CC", "AN", "MR", "RD", "CLA", "VOC", "BAL"]

/-- main.py 2309-2349, `WiscVApp.calcular_escala_total_cit`, reduced to its
data flow: collect the scaled scores of the 7 designated subtests
(`puntajes_disponibles = subpruebas_principales.filterMap puntajes_escalares`),
and convert their sum only when exactly 7 are available; widget updates and
the confidence-level choice are presentation only. -/
def calcular_escala_total_cit (tabla_cit : List FilaCIT)
    (puntajes_escalares : String → Option Int) : Option ResultadoCIT :=
  if (subpruebas_principales.filterMap puntajes_escalares).length = 7 then
    convertir_cit tabla_cit
      ((subpruebas_principales.filterMap puntajes_escalares).foldl (· + ·) 0)
  else none

abbrev OrdenadaCIT (datos : List FilaCIT) : Prop :=
  List.Pairwise (fun a b => a.suma < b.suma) datos

theorem suma_head_le_cit {f0 : FilaCIT} {resto : List FilaCIT}
    (h : OrdenadaCIT (f0 :: resto)) : ∀ g ∈ f0 :: resto, f0.suma ≤ g.suma := by
  intro g hg
  rcases List.mem_cons.1 hg with rfl | hg'
  · exact le_refl _
  · exact le_of_lt ((List.pairwise_cons.1 h).1 g hg')

theorem suma_le_ultima_cit {front : List FilaCIT} {fmax : FilaCIT}
    (h : OrdenadaCIT (front ++ [fmax])) : ∀ g ∈ front ++ [fmax], g.suma ≤ fmax.suma := by
  replace h := List.pairwise_append.1 h
  intro g hg
  rcases List.mem_append.1 hg with hgf | hgr
  · exact le_of_lt (h.2.2 g hgf fmax (by simp))
  · simp only [List.mem_singleton] at hgr
    subst hgr
    exact le_refl _

theorem find_exacto_cit {datos : List FilaCIT} (hs : OrdenadaCIT datos) {fila : FilaCIT}
    {s : Int} (hmem : fila ∈ datos) (heq : fila.suma = s) :
    datos.find? (fun f => f.suma == s) = some fila := by
  induction datos with
  | nil => cases hmem
  | cons x t ih =>
    rcases List.mem_cons.1 hmem with rfl | hmem'
    · exact List.find?_cons_of_pos t (by simp [heq])
    · have hx : x.suma < fila.suma := (List.pairwise_cons.1 hs).1 fila hmem'
      rw [List.find?_cons_of_neg t (by simp; omega)]
      exact ih (List.pairwise_cons.1 hs).2 hmem'

theorem find_ninguno_cit {datos : List FilaCIT} {s : Int}
    (h : ∀ f ∈ datos, f.suma ≠ s) :
    datos.find? (fun f => f.suma == s) = none :=
  List.find?_eq_none.2 (fun f hf => by simp [h f hf])

theorem buscarIntervaloCIT_eq {s : Int} (pre : List FilaCIT) {fi fj : FilaCIT}
    {post : List FilaCIT} (hs : OrdenadaCIT (pre ++ fi :: fj :: post)) (h1 : fi.suma < s)
    (h2 : s < fj.suma) :
    buscarIntervaloCIT s (pre ++ fi :: fj :: post) = some (interpolacionCIT fi fj s) := by
  induction pre with
  | nil =>
    simp only [List.nil_append, buscarIntervaloCIT]
    rw [if_pos ⟨le_of_lt h1, le_of_lt h2⟩]
  | cons p pre' ih =>
    have hs' : OrdenadaCIT (pre' ++ fi :: fj :: post) := (List.pairwise_cons.1 hs).2
    specialize ih hs'
    cases pre' with
    | nil =>
      simp only [List.cons_append, List.nil_append, buscarIntervaloCIT]
      rw [if_neg (by intro hc; omega)]
      exact ih
    | cons p2 pre'' =>
      have hp2 : p2.suma < fi.suma := by
        replace hs := List.pairwise_append.1 hs
        exact hs.2.2 p2 (by simp) fi (by simp)
      simp only [List.cons_append, buscarIntervaloCIT]
      rw [if_neg (by intro hc; omega)]
      exact ih

theorem salto_cit {pre post : List FilaCIT} {fi fj : FilaCIT}
    (hs : OrdenadaCIT (pre ++ fi :: fj :: post)) :
    ∀ g ∈ pre ++ fi :: fj :: post, fi.suma < g.suma → fj.suma ≤ g.suma := by
  replace hs := List.pairwise_append.1 hs
  intro g hg hlt
  rcases List.mem_append.1 hg with hgf | hgr
  · have := hs.2.2 g hgf fi (by simp)
    omega
  · rcases List.mem_cons.1 hgr with rfl | hgr'
    · omega
    · rcases List.mem_cons.1 hgr' with rfl | hgr''
      · exact le_refl _
      · exact le_of_lt ((List.pairwise_cons.1 (List.pairwise_cons.1 hs.2.1).2).1 g hgr'')

theorem convertir_cit_exacto {datos : List FilaCIT} (hs : OrdenadaCIT datos)
    {fila : FilaCIT} {s : Int} (hmem : fila ∈ datos) (heq : fila.suma = s) :
    convertir_cit datos s =
      some ⟨fila.cit, fila.percentil, fila.conf_90, fila.conf_95⟩ := by
  cases datos with
  | nil => cases hmem
  | cons f0 resto =>
    simp only [convertir_cit]
    rw [find_exacto_cit hs hmem heq]

theorem convertir_cit_bajo {f0 : FilaCIT} {resto : List FilaCIT} {s : Int}
    (hs : OrdenadaCIT (f0 :: resto)) (hlt : s < f0.suma) :
    convertir_cit (f0 :: resto) s = some ⟨f0.cit, f0.percentil, f0.conf_90, f0.conf_95⟩ := by
  have hmin : ∀ g ∈ f0 :: resto, f0.suma ≤ g.suma := suma_head_le_cit hs
  have hfind : (f0 :: resto).find? (fun f => f.suma == s) = none :=
    find_ninguno_cit (fun f hf => by have := hmin f hf; omega)
  have hpm : s < pyMin f0.suma (resto.map FilaCIT.suma) := by
    have h1 : f0.suma ≤ pyMin f0.suma (resto.map FilaCIT.suma) :=
      le_pyMin (le_refl _) (by
        intro y hy
        rcases List.mem_map.1 hy with ⟨g, hg, rfl⟩
        exact hmin g (List.mem_cons_of_mem _ hg))
    omega
  simp only [convertir_cit]
  rw [hfind]
  simp only [if_pos hpm]

theorem convertir_cit_alto {front : List FilaCIT} {fmax : FilaCIT} {s : Int}
    (hs : OrdenadaCIT (front ++ [fmax])) (hgt : fmax.suma < s) :
    convertir_cit (front ++ [fmax]) s =
      some ⟨fmax.cit, fmax.percentil, fmax.conf_90, fmax.conf_95⟩ := by
  have hult : ∀ g ∈ front ++ [fmax], g.suma ≤ fmax.suma := suma_le_ultima_cit hs
  have hfind : (front ++ [fmax]).find? (fun f => f.suma == s) = none :=
    find_ninguno_cit (fun f hf => by have := hult f hf; omega)
  obtain ⟨f0, resto, hdat⟩ : ∃ f0 resto, front ++ [fmax] = f0 :: resto := by
    cases front with
    | nil => exact ⟨fmax, [], rfl⟩
    | cons x xs => exact ⟨x, xs ++ [fmax], rfl⟩
  have hminle : ¬ (s < pyMin f0.suma (resto.map FilaCIT.suma)) := by
    have h0 : pyMin f0.suma (resto.map FilaCIT.suma) ≤ f0.suma := pyMin_le_head _ _
    have := hult f0 (by rw [hdat]; simp)
    omega
  have hmax : pyMax f0.suma (resto.map FilaCIT.suma) < s := by
    have hub : pyMax f0.suma (resto.map FilaCIT.suma) ≤ fmax.suma := by
      apply pyMax_le
      · exact hult f0 (by rw [hdat]; simp)
      · intro y hy
        rcases List.mem_map.1 hy with ⟨g, hg, rfl⟩
        exact hult g (by rw [hdat]; exact List.mem_cons_of_mem _ hg)
    omega
  have hlast : (f0 :: resto).getLast (List.cons_ne_nil f0 resto) = fmax := by
    have h1 : (front ++ [fmax]).getLast? = some fmax := List.getLast?_concat front
    have hg := List.getLast?_eq_getLast (f0 :: resto) (List.cons_ne_nil f0 resto)
    rw [hdat] at h1
    rw [h1] at hg
    exact (Option.some.inj hg).symm
  rw [hdat] at hfind ⊢
  simp only [convertir_cit]
  rw [hfind]
  simp only [if_neg hminle, if_pos hmax, hlast]

theorem convertir_cit_interior {pre post : List FilaCIT} {fi fj : FilaCIT} {s : Int}
    (hs : OrdenadaCIT (pre ++ fi :: fj :: post)) (h1 : fi.suma < s) (h2 : s < fj.suma) :
    convertir_cit (pre ++ fi :: fj :: post) s = some (interpolacionCIT fi fj s) := by
  have hfj : fj ∈ pre ++ fi :: fj :: post := by simp
  have hfind : (pre ++ fi :: fj :: post).find? (fun f => f.suma == s) = none := by
    apply find_ninguno_cit
    intro f hf hfs
    have := salto_cit hs f hf (by omega)
    omega
  obtain ⟨f0, resto, hdat⟩ : ∃ f0 resto, pre ++ fi :: fj :: post = f0 :: resto := by
    cases pre with
    | nil => exact ⟨fi, fj :: post, rfl⟩
    | cons x xs => exact ⟨x, xs ++ fi :: fj :: post, rfl⟩
  have hs0 : OrdenadaCIT (f0 :: resto) := hdat ▸ hs
  have hminle : ¬ (s < pyMin f0.suma (resto.map FilaCIT.suma)) := by
    have h0 : pyMin f0.suma (resto.map FilaCIT.suma) ≤ f0.suma := pyMin_le_head _ _
    have hfi0 : fi ∈ f0 :: resto := hdat ▸ (by simp : fi ∈ pre ++ fi :: fj :: post)
    have := suma_head_le_cit hs0 fi hfi0
    omega
  have hmaxgt : ¬ (pyMax f0.suma (resto.map FilaCIT.suma) < s) := by
    have hfj0 : fj ∈ f0 :: resto := hdat ▸ hfj
    have : fj.suma ≤ pyMax f0.suma (resto.map FilaCIT.suma) := by
      rcases List.mem_cons.1 hfj0 with heq | hm
      · rw [← heq]
        exact head_le_pyMax _ _
      · exact mem_le_pyMax _ _ fj.suma (List.mem_map.2 ⟨fj, hm, rfl⟩)
    omega
  have hbi := buscarIntervaloCIT_eq pre hs h1 h2
  rw [hdat] at hfind hbi ⊢
  simp only [convertir_cit]
  rw [hfind]
  simp only [if_neg hminle, if_neg hmaxgt]
  exact hbi

theorem length_filterMap_todos {α β : Type} (f : α → Option β) (l : List α)
    (h : ∀ a ∈ l, (f a).isSome) : (l.filterMap f).length = l.length := by
  induction l with
  | nil => rfl
  | cons a t ih =>
    have ha := h a (List.mem_cons_self a t)
    rcases Option.isSome_iff_exists.1 ha with ⟨b, hb⟩
    rw [List.filterMap_cons, hb]
    simp only [List.length_cons]
    rw [ih (fun x hx => h x (List.mem_cons_of_mem a hx))]

theorem todos_de_length_filterMap {α β : Type} (f : α → Option β) (l : List α)
    (h : (l.filterMap f).length = l.length) : ∀ a ∈ l, (f a).isSome := by
  induction l with
  | nil => intro a ha; cases ha
  | cons a t ih =>
    intro x hx
    have hle := List.length_filterMap_le f t
    rcases hfa : f a with _ | b
    · rw [List.filterMap_cons, hfa] at h
      simp only [List.length_cons] at h
      omega
    · rcases List.mem_cons.1 hx with rfl | hx'
      · simp [hfa]
      · rw [List.filterMap_cons, hfa] at h
        simp only [List.length_cons] at h
        exact ih (by omega) x hx'

/-- C7: the CIT converter applies no extrapolation damping: on a sorted
non-empty CIT table, a sum below the smallest tabulated sum returns the
first row's values unchanged, a sum above the largest tabulated sum
returns the last row's values unchanged, a tabulated sum returns its row's
values, and an interior non-exact sum is plainly linearly interpolated
with percentile and confidence intervals from the lower bracketing row;
the UI computes the CIT from the sum of scaled scores exactly when all 7
designated subtests have scaled scores. -/
theorem convertir_cit_contrato :
    (∀ (f0 : FilaCIT) (resto : List FilaCIT) (s : Int),
      OrdenadaCIT (f0 :: resto) → s < f0.suma →
      convertir_cit (f0 :: resto) s =
        some ⟨f0.cit, f0.percentil, f0.conf_90, f0.conf_95⟩) ∧
    (∀ (front : List FilaCIT) (fmax : FilaCIT) (s : Int),
      OrdenadaCIT (front ++ [fmax]) → fmax.suma < s →
      convertir_cit (front ++ [fmax]) s =
        some ⟨fmax.cit, fmax.percentil, fmax.conf_90, fmax.conf_95⟩) ∧
    (∀ (datos : List FilaCIT) (fila : FilaCIT) (s : Int),
      OrdenadaCIT datos → fila ∈ datos → fila.suma = s →
      convertir_cit datos s =
        some ⟨fila.cit, fila.percentil, fila.conf_90, fila.conf_95⟩) ∧
    (∀ (pre post : List FilaCIT) (fi fj : FilaCIT) (s : Int),
      OrdenadaCIT (pre ++ fi :: fj :: post) → fi.suma < s → s < fj.suma →
      convertir_cit (pre ++ fi :: fj :: post) s =
        some { compuesto := pyRound ((fi.cit : ℚ) +
                 ((s : ℚ) - (fi.suma : ℚ)) / ((fj.suma : ℚ) - (fi.suma : ℚ)) *
                   ((fj.cit : ℚ) - (fi.cit : ℚ))),
               percentil := fi.percentil, conf_90 := fi.conf_90, conf_95 := fi.conf_95 }) ∧
    (∀ (tabla : List FilaCIT) (puntajes : String → Option Int),
      (∀ sub ∈ subpruebas_principales, (puntajes sub).isSome = true) →
      calcular_escala_total_cit tabla puntajes =
        convertir_cit tabla ((subpruebas_principales.filterMap puntajes).foldl (· + ·) 0)) ∧
    (∀ (tabla : List FilaCIT) (puntajes : String → Option Int) (r : ResultadoCIT),
      calcular_escala_total_cit tabla puntajes = some r →
      ∀ sub ∈ subpruebas_principales, (puntajes sub).isSome = true) := by
  refine ⟨?_, ?_, ?_, ?_, ?_, ?_⟩
  · intro f0 resto s hs hlt
    exact convertir_cit_bajo hs hlt
  · intro front fmax s hs hgt
    exact convertir_cit_alto hs hgt
  · intro datos fila s hs hm he
    exact convertir_cit_exacto hs hm he
  · intro pre post fi fj s hs h1 h2
    exact convertir_cit_interior hs h1 h2
  · intro tabla puntajes h
    have hlen : (subpruebas_principales.filterMap puntajes).length = 7 := by
      rw [length_filterMap_todos puntajes _ h]
      rfl
    simp only [calcular_escala_total_cit, if_pos hlen]
  · intro tabla puntajes r h sub hsub
    by_cases hc : (subpruebas_principales.filterMap puntajes).length = 7
    · exact todos_de_length_filterMap puntajes _ (by rw [hc]; rfl) sub hsub
    · exfalso
      simp only [calcular_escala_total_cit, if_neg hc] at h
      exact Option.noConfusion h

/-- A two-row CIT table used to exercise the converter's branches. -/
def tablaCIT : List FilaCIT :=
  [{ suma := 60, cit := 90, percentil := "25", conf_90 := "85-97", conf_95 := "83-99" },
   { suma := 80, cit := 110, percentil := "75", conf_90 := "103-115", conf_95 := "101-117" }]

theorem convertir_cit_contrato_testigo :
    convertir_cit tablaCIT 50 = some ⟨90, "25", "85-97", "83-99"⟩ ∧
    convertir_cit tablaCIT 90 = some ⟨110, "75", "103-115", "101-117"⟩ ∧
    convertir_cit tablaCIT 60 = some ⟨90, "25", "85-97", "83-99"⟩ ∧
    convertir_cit tablaCIT 70 = some ⟨100, "25", "85-97", "83-99"⟩ ∧
    calcular_escala_total_cit tablaCIT (fun _ => some 10) =
      some ⟨100, "25", "85-97", "83-99"⟩ := by
  have h := convertir_cit_contrato
  have h4 := h.2.2.2.1 [] []
    { suma := 60, cit := 90, percentil := "25", conf_90 := "85-97", conf_95 := "83-99" }
    { suma := 80, cit := 110, percentil := "75", conf_90 := "103-115", conf_95 := "101-117" }
    70 (by decide) (by decide) (by decide)
  have h4' : convertir_cit tablaCIT 70 = some ⟨100, "25", "85-97", "83-99"⟩ := by
    refine Eq.trans h4 ?_
    norm_num [pyRound]
  refine ⟨?_, ?_, ?_, h4', ?_⟩
  · exact h.1
      { suma := 60, cit := 90, percentil := "25", conf_90 := "85-97", conf_95 := "83-99" }
      [{ suma := 80, cit := 110, percentil := "75", conf_90 := "103-115", conf_95 := "101-117" }]
      50 (by decide) (by decide)
  · exact h.2.1
      [{ suma := 60, cit := 90, percentil := "25", conf_90 := "85-97", conf_95 := "83-99" }]
      { suma := 80, cit := 110, percentil := "75", conf_90 := "103-115", conf_95 := "101-117" }
      90 (by decide) (by decide)
  · exact h.2.2.1 tablaCIT
      { suma := 60, cit := 90, percentil := "25", conf_90 := "85-97", conf_95 := "83-99" }
      60 (by decide) (by decide) rfl
  · have h5 := h.2.2.2.2.1 tablaCIT (fun _ => some 10) (fun sub _ => rfl)
    rw [h5]
    have hsum : ((subpruebas_principales.filterMap (fun _ => some (10 : Int))).foldl (· + ·) 0)
        = 70 := by decide
    rw [hsum]
    exact h4'

/-! ## Raw-to-scaled converter (`WISCConverter`, core/converter.py) -/

/-- converter.py 39-73: the 22 fixed age bands, each as
`((anios_min, meses_min), (anios_max, meses_max), grupo_id)`. -/
def grupos : List ((Int × Int) × (Int × Int) × String) :=
  [((6, 0), (6, 5), "6_0_6_5"),
   ((6, 6), (6, 11), "6_6_6_11"),
   ((7, 0), (7, 5), "7_0_7_5"),
   ((7, 6), (7, 11), "7_6_7_11"),
   ((8, 0), (8, 5), "8_0_8_5"),
   ((8, 6), (8, 11), "8_6_8_11"),
   ((9, 0), (9, 5), "9_0_9_5"),
   ((9, 6), (9, 11), "9_6_9_11"),
   ((10, 0), (10, 5), "10_0_10_5"),
   ((10, 6), (10, 11), "10_6_10_11"),
   ((11, 0), (11, 5), "11_0_11_5"),
   ((11, 6), (11, 11), "11_6_11_11"),
   ((12, 0), (12, 5), "12_0_12_5"),
   ((12, 6), (12, 11), "12_6_12_11"),
   ((13, 0), (13, 5), "13_0_13_5"),
   ((13, 6), (13, 11), "13_6_13_11"),
   ((14, 0), (14, 5), "14_0_14_5"),
   ((14, 6), (14, 11), "14_6_14_11"),
   ((15, 0), (15, 5), "15_0_15_5"),
   ((15, 6), (15, 11), "15_6_15_11"),
   ((16, 0), (16, 5), "16_0_16_5"),
   ((16, 6), (16, 11), "16_6_16_11")]

/-- converter.py 76-84: the linear scan for the first band whose month
range contains the age. -/
def buscarGrupo (edad_en_meses : Int) :
    List ((Int × Int) × (Int × Int) × String) → Option String
  | [] => none
  | ((anios_min, meses_min), (anios_max, meses_max), grupo_id) :: resto =>
    if anios_min * 12 + meses_min ≤ edad_en_meses ∧
        edad_en_meses ≤ anios_max * 12 + meses_max then
      some grupo_id
    else buscarGrupo edad_en_meses resto

/-- converter.py 28-90, `WISCConverter._convertir_edad_a_grupo`, with the
age already parsed from "años:meses" into the two integers; the
`ValueError` raised when no band matches is `none`. -/
def convertir_edad_a_grupo (anios meses : Int) : Option String :=
  buscarGrupo (anios * 12 + meses) grupos

/-- converter.py 94-109, the body of `WISCConverter._esta_en_rango` for a
present, non-`None` cell: the `"low-high"` and single-value formats are
parsed with Python `int`, and any parse failure yields `False`. -/
def esta_en_rango_str (puntaje : Int) (rango_str : String) : Bool :=
  if rango_str == "" || rango_str == "-" then false
  else if contieneSub ['-'] rango_str.data then
    match pySplit '-' rango_str.data with
    | [min_str, max_str] =>
      match pyInt min_str, pyInt max_str with
      | some min_val, some max_val => decide (min_val ≤ puntaje ∧ puntaje ≤ max_val)
      | _, _ => false
    | _ => false
  else
    match pyInt rango_str.data with
    | some v => puntaje == v
    | none => false

/-- converter.py 92-109, `WISCConverter._esta_en_rango`: `none` is a
missing cell (Python `None`), which like the empty string is falsy and
rejected by the guard `if not rango_str`. -/
def esta_en_rango (puntaje : Int) (rango : Option String) : Bool :=
  match rango with
  | none => false
  | some rango_str => esta_en_rango_str puntaje rango_str

/-- A row of a raw-to-scaled table: the scaled score and the per-subtest
raw-score cells (`fila.get(subprueba)` is `celdas.lookup`). -/
structure FilaTabla where
  puntaje_escala : Int
  celdas : List (String × String)
deriving DecidableEq, Repr

/-- The loaded `WISC_V_tablas_conversion` data: the known subtest codes
and, per age-band id, the band's ordered rows. -/
structure WiscData where
  subpruebas : List String
  grupos_etarios : List (String × List FilaTabla)

/-- converter.py 111-157, `WISCConverter.convertir_puntaje`: resolve the
age band, check the subtest code (with the hardcoded INF→IN alias), fetch
the band's table and return the first row whose cell contains the raw
score; every raised error is `none`. -/
def convertir_puntaje (data : WiscData) (anios meses : Int) (subprueba : String)
    (puntaje_bruto : Int) : Option Int :=
  match convertir_edad_a_grupo anios meses with
  | none => none
  | some grupo_id =>
    match (if data.subpruebas.contains subprueba then some subprueba
           else if subprueba == "INF" then some "IN" else none : Option String) with
    | none => none
    | some sp =>
      match data.grupos_etarios.lookup grupo_id with
      | none => none
      | some tabla =>
        match tabla.find? (fun fila => esta_en_rango puntaje_bruto (fila.celdas.lookup sp)) with
        | some fila => some fila.puntaje_escala
        | none => none

/-- Lower end of a band, in months. -/
def mesesMin (g : (Int × Int) × (Int × Int) × String) : Int := g.1.1 * 12 + g.1.2

/-- Upper end of a band, in months. -/
def mesesMax (g : (Int × Int) × (Int × Int) × String) : Int := g.2.1.1 * 12 + g.2.1.2

theorem buscarGrupo_cons_eta (e : Int) (g : (Int × Int) × (Int × Int) × String)
    (resto : List ((Int × Int) × (Int × Int) × String)) :
    buscarGrupo e (g :: resto) =
      if mesesMin g ≤ e ∧ e ≤ mesesMax g then some g.2.2 else buscarGrupo e resto := by
  obtain ⟨⟨amin, mmin⟩, ⟨amax, mmax⟩, gid⟩ := g
  rfl

theorem buscarGrupo_contiene (e : Int) :
    ∀ l : List ((Int × Int) × (Int × Int) × String),
      (buscarGrupo e l).isSome = true → ∃ g ∈ l, mesesMin g ≤ e ∧ e ≤ mesesMax g := by
  intro l
  induction l with
  | nil => intro h; simp [buscarGrupo] at h
  | cons g resto ih =>
    intro h
    rw [buscarGrupo_cons_eta] at h
    by_cases hc : mesesMin g ≤ e ∧ e ≤ mesesMax g
    · exact ⟨g, List.mem_cons_self g resto, hc⟩
    · rw [if_neg hc] at h
      obtain ⟨g', hg', hb⟩ := ih h
      exact ⟨g', List.mem_cons_of_mem g hg', hb⟩

theorem buscarGrupo_cubre (e : Int) :
    ∀ l : List ((Int × Int) × (Int × Int) × String),
      (∃ g ∈ l, mesesMin g ≤ e ∧ e ≤ mesesMax g) → (buscarGrupo e l).isSome = true := by
  intro l
  induction l with
  | nil => rintro ⟨g, hg, _⟩; cases hg
  | cons g0 resto ih =>
    rintro ⟨g, hg, hb⟩
    rw [buscarGrupo_cons_eta]
    by_cases hc : mesesMin g0 ≤ e ∧ e ≤ mesesMax g0
    · rw [if_pos hc]; rfl
    · rw [if_neg hc]
      rcases List.mem_cons.1 hg with rfl | hg'
      · exact absurd hb hc
      · exact ih ⟨g, hg', hb⟩

set_option maxHeartbeats 1000000 in
theorem buscarGrupo_isSome (e : Int) :
    (buscarGrupo e grupos).isSome = true ↔ (72 ≤ e ∧ e ≤ 203) := by
  constructor
  · intro h
    obtain ⟨g, hg, hb⟩ := buscarGrupo_contiene e grupos h
    have hdentro : ∀ g ∈ grupos, 72 ≤ mesesMin g ∧ mesesMax g ≤ 203 := by decide
    have := hdentro g hg
    omega
  · rintro ⟨h1, h2⟩
    interval_cases e <;> decide

theorem buscarGrupo_mem (e : Int) :
    ∀ (l : List ((Int × Int) × (Int × Int) × String)) gid,
      buscarGrupo e l = some gid → gid ∈ l.map (fun g => g.2.2) := by
  intro l
  induction l with
  | nil => intro gid h; cases h
  | cons g resto ih =>
    intro gid h
    obtain ⟨⟨amin, mmin⟩, ⟨amax, mmax⟩, id0⟩ := g
    simp only [buscarGrupo] at h
    split_ifs at h with hc
    · rw [Option.some.inj h] at *
      simp
    · simp only [List.map_cons, List.mem_cons]
      exact Or.inr (ih gid h)

/-- C5: resolving an age of `anios` years and `meses` months to an age
band succeeds and yields one of the 22 fixed, pairwise-disjoint bands if
and only if the total months lies in [72, 203]; for every age outside
that interval, score conversion returns no scaled score (the RangeError
path). -/
theorem convertir_edad_bandas :
    (∀ anios meses : Int,
      (∃ gid, convertir_edad_a_grupo anios meses = some gid) ↔
        (72 ≤ anios * 12 + meses ∧ anios * 12 + meses ≤ 203)) ∧
    grupos.length = 22 ∧
    List.Pairwise (fun g1 g2 => mesesMax g1 < mesesMin g2 ∨ mesesMax g2 < mesesMin g1)
      grupos ∧
    (∀ (anios meses : Int) (gid : String), convertir_edad_a_grupo anios meses = some gid →
      gid ∈ grupos.map (fun g => g.2.2)) ∧
    (∀ (data : WiscData) (anios meses : Int) (subprueba : String) (puntaje : Int),
      (anios * 12 + meses < 72 ∨ 203 < anios * 12 + meses) →
      convertir_puntaje data anios meses subprueba puntaje = none) := by
  refine ⟨?_, rfl, by decide, ?_, ?_⟩
  · intro anios meses
    rw [← Option.isSome_iff_exists]
    exact buscarGrupo_isSome (anios * 12 + meses)
  · intro anios meses gid h
    exact buscarGrupo_mem (anios * 12 + meses) grupos gid h
  · intro data anios meses subprueba puntaje h
    have hnone : convertir_edad_a_grupo anios meses = none := by
      rcases hcase : convertir_edad_a_grupo anios meses with _ | gid
      · rfl
      · exfalso
        have hsome : (buscarGrupo (anios * 12 + meses) grupos).isSome = true := by
          unfold convertir_edad_a_grupo at hcase
          rw [hcase]
          rfl
        have := (buscarGrupo_isSome (anios * 12 + meses)).1 hsome
        omega
    unfold convertir_puntaje
    rw [hnone]

/-- A small raw-to-scaled data set for the 8:6-8:11 band. -/
def datosEjemplo : WiscData :=
  { subpruebas := ["CC"],
    grupos_etarios :=
      [("8_6_8_11",
        [{ puntaje_escala := 1, celdas := [("CC", "0-3")] },
         { puntaje_escala := 7, celdas := [("CC", "12-14")] }])] }

theorem convertir_edad_bandas_testigo :
    convertir_puntaje datosEjemplo 5 0 "CC" 10 = none ∧
    "8_6_8_11" ∈ grupos.map (fun g => g.2.2) := by
  constructor
  · exact convertir_edad_bandas.2.2.2.2 datosEjemplo 5 0 "CC" 10 (Or.inl (by norm_num))
  · exact convertir_edad_bandas.2.2.2.1 8 6 "8_6_8_11" (by decide)

/-- C6: for an in-range age, a known subtest code and any raw score,
`convertir_puntaje` returns the scaled value of the first row of the
band's table whose cell for that subtest contains the raw score ('-' and
empty cells never match), and returns nothing when no row matches; and a
raw score at the midpoint of a well-formed "low-high" cell is inside that
cell's range. -/
theorem convertir_puntaje_contrato :
    (∀ (data : WiscData) (anios meses : Int) (grupo_id subprueba : String)
        (puntaje : Int) (tabla : List FilaTabla),
      convertir_edad_a_grupo anios meses = some grupo_id →
      data.subpruebas.contains subprueba = true →
      data.grupos_etarios.lookup grupo_id = some tabla →
      convertir_puntaje data anios meses subprueba puntaje =
        (tabla.find? (fun fila =>
          esta_en_rango puntaje (fila.celdas.lookup subprueba))).map
            FilaTabla.puntaje_escala) ∧
    (∀ (c min_str max_str : List Char) (min_val max_val : Int),
      contieneSub ['-'] c = true →
      (String.mk c == "" || String.mk c == "-") = false →
      pySplit '-' c = [min_str, max_str] →
      pyInt min_str = some min_val → pyInt max_str = some max_val →
      min_val ≤ max_val →
      esta_en_rango (min_val + (max_val - min_val) / 2) (some (String.mk c)) = true) := by
  constructor
  · intro data anios meses grupo_id subprueba puntaje tabla he hsub htab
    unfold convertir_puntaje
    rw [he, hsub]
    simp only [if_true]
    rw [htab]
    cases hf : tabla.find? (fun fila =>
        esta_en_rango puntaje (fila.celdas.lookup subprueba)) <;> simp [hf]
  · intro c min_str max_str min_val max_val hdash hne hsplit hmn hmx hle
    show esta_en_rango_str (min_val + (max_val - min_val) / 2) (String.mk c) = true
    unfold esta_en_rango_str
    rw [if_neg (by rw [hne]; exact Bool.false_ne_true)]
    have hdata : (String.mk c).data = c := rfl
    rw [hdata, if_pos hdash, hsplit]
    simp only [hmn, hmx, decide_eq_true_eq]
    omega

theorem convertir_puntaje_contrato_testigo :
    convertir_puntaje datosEjemplo 8 6 "CC" 13 = some 7 ∧
    esta_en_rango 13 (some "12-14") = true := by
  constructor
  · have h1 := convertir_puntaje_contrato.1 datosEjemplo 8 6 "8_6_8_11" "CC" 13
      [{ puntaje_escala := 1, celdas := [("CC", "0-3")] },
       { puntaje_escala := 7, celdas := [("CC", "12-14")] }]
      (by decide) (by decide) (by decide)
    rw [h1]
    decide
  · exact convertir_puntaje_contrato.2 "12-14".data "12".data "14".data 12 14
      (by decide) (by decide) (by decide) (by decide) (by decide) (by decide)

/-- C10: the range-membership test is total: a missing cell, a "-" marker
or an empty cell is false, and any cell on which it returns true is a
well-formed "low-high" cell containing the score or a well-formed single
value equal to the score — so malformed cells yield false and are skipped
rather than raising. -/
theorem esta_en_rango_total : ∀ (puntaje : Int) (c : String),
    (esta_en_rango puntaje none = false ∧
     esta_en_rango puntaje (some "") = false ∧
     esta_en_rango puntaje (some "-") = false) ∧
    (esta_en_rango puntaje (some c) = true →
      (contieneSub ['-'] c.data = true ∧
        ∃ min_str max_str min_val max_val,
          pySplit '-' c.data = [min_str, max_str] ∧
          pyInt min_str = some min_val ∧ pyInt max_str = some max_val ∧
          min_val ≤ puntaje ∧ puntaje ≤ max_val) ∨
      (contieneSub ['-'] c.data = false ∧ pyInt c.data = some puntaje)) := by
  intro puntaje c
  refine ⟨⟨rfl, rfl, rfl⟩, ?_⟩
  intro h
  replace h : esta_en_rango_str puntaje c = true := h
  unfold esta_en_rango_str at h
  by_cases h0 : (c == "" || c == "-") = true
  · rw [if_pos h0] at h
    exact absurd h (by simp)
  · rw [if_neg h0] at h
    by_cases h1 : contieneSub ['-'] c.data = true
    · rw [if_pos h1] at h
      left
      refine ⟨h1, ?_⟩
      rcases hsp : pySplit '-' c.data with _ | ⟨a, _ | ⟨b, _ | ⟨d, t⟩⟩⟩ <;> rw [hsp] at h
      · exact absurd h (by simp)
      · exact absurd h (by simp)
      · rcases ha : pyInt a with _ | va <;> rcases hb : pyInt b with _ | vb <;>
          simp only [ha, hb] at h
        · exact absurd h (by simp)
        · exact absurd h (by simp)
        · exact absurd h (by simp)
        · rw [decide_eq_true_eq] at h
          exact ⟨a, b, va, vb, rfl, ha, hb, h.1, h.2⟩
      · exact absurd h (by simp)
    · rw [if_neg h1] at h
      right
      refine ⟨by simpa using h1, ?_⟩
      rcases hv : pyInt c.data with _ | v <;> rw [hv] at h
      · exact absurd h (by simp)
      · have : puntaje = v := by simpa using h
        rw [this]

theorem esta_en_rango_total_testigo :
    (contieneSub ['-'] "8-10".data = true ∧
      ∃ min_str max_str min_val max_val,
        pySplit '-' "8-10".data = [min_str, max_str] ∧
        pyInt min_str = some min_val ∧ pyInt max_str = some max_val ∧
        min_val ≤ 9 ∧ (9 : Int) ≤ max_val) ∨
    (contieneSub ['-'] "8-10".data = false ∧ pyInt "8-10".data = some 9) :=
  (esta_en_rango_total 9 "8-10").2 (by decide)

/-! ## Table loaders at startup

File-system access is abstracted into a `CargaArchivo` outcome; what is
embedded is each loader's decision logic: which outcomes return a built-in
value and which re-raise. -/

/-- The outcome of trying to read a JSON data file. -/
inductive CargaArchivo (α : Type) where
  | encontrada (contenido : α)
  | faltante
  | jsonInvalido

/-- tablas_wiscv.py 66-82, `obtener_tablas_por_defecto`: the minimal
built-in band table (band → subtest → scaled score → raw range). -/
def obtener_tablas_por_defecto : List (String × List (String × List (String × String))) :=
  [("8:6-8:11",
    [("CC", [("1", "0-3"), ("2", "4"), ("3", "5"), ("4", "6-7"), ("5", "8-9"),
             ("6", "10-11"), ("7", "12-14"), ("8", "15-16"), ("9", "17-19"),
             ("10", "20-21"), ("11", "22-24"), ("12", "25-27"), ("13", "28-30"),
             ("14", "31-32"), ("15", "33-35"), ("16", "36-37"), ("17", "38-39"),
             ("18", "40-41"), ("19", "42-58")]),
     ("BAL", [("1", "0-3"), ("2", "4-5"), ("3", "6-7"), ("4", "8-9"), ("5", "10"),
              ("6", "11"), ("7", "12"), ("8", "13"), ("9", "14"), ("10", "15-16"),
              ("11", "17"), ("12", "19"), ("13", "20-20"), ("14", "21-22"),
              ("15", "23"), ("16", "24-25"), ("17", "26"), ("18", "27"),
              ("19", "28-34")])])]

/-- tablas_wiscv.py 10-64, `cargar_tablas_completas`: a missing tables
folder falls back to the built-in default; unreadable JSON files are
skipped, and when zero files load (all missing or malformed) the default
is returned; a non-empty load is returned as-is. -/
def cargar_tablas_completas
    (resultado : CargaArchivo (List (String × List (String × List (String × String))))) :
    List (String × List (String × List (String × String))) :=
  match resultado with
  | .encontrada tablas => if tablas.isEmpty then obtener_tablas_por_defecto else tablas
  | .faltante => obtener_tablas_por_defecto
  | .jsonInvalido => obtener_tablas_por_defecto

/-- The `tablas_conversion` mapping of `wisc_v_compuestos.json`: index
abbreviation → (name, rows). -/
structure TablasCompuestos where
  tablas_conversion : List (String × String × List Fila)
deriving DecidableEq, Repr

/-- main.py 391-418, `ConversorCompuestos.cargar_tablas_compuestos`: any
load failure returns the empty structure `{"tablas_conversion": {}}`
instead of raising. -/
def cargar_tablas_compuestos (resultado : CargaArchivo TablasCompuestos) : TablasCompuestos :=
  match resultado with
  | .encontrada datos => datos
  | .faltante => { tablas_conversion := [] }
  | .jsonInvalido => { tablas_conversion := [] }

/-- The `wisc_v_cit.json` content used by `ConversorCIT`. -/
structure TablaCITDatos where
  datos : List FilaCIT
deriving DecidableEq, Repr

/-- main.py 521-546, `ConversorCIT.cargar_tabla_cit`: any load failure
returns `{"datos": []}` instead of raising. -/
def cargar_tabla_cit (resultado : CargaArchivo TablaCITDatos) : TablaCITDatos :=
  match resultado with
  | .encontrada datos => datos
  | .faltante => { datos := [] }
  | .jsonInvalido => { datos := [] }

/-- converter.py 10-26, `WISCConverter._cargar_datos`: a missing or
malformed `wisc_v_data.json` re-raises an `Exception` (`none` here);
there is no built-in fallback. The module-level `conversor =
WISCConverter()` (converter.py 168) runs this at import time, and the
importer in main.py catches only `ImportError`, not this `Exception`. -/
def cargar_datos (resultado : CargaArchivo WiscData) : Option WiscData :=
  match resultado with
  | .encontrada datos => some datos
  | .faltante => none
  | .jsonInvalido => none

/-- C8 as stated is false: the raw-to-scaled converter's loader does not
fall back to a built-in default on a missing or malformed table file — it
raises (modelled `none`) — while the band-table loader does fall back. -/
theorem cargar_datos_contraejemplo :
    cargar_datos CargaArchivo.faltante = none ∧
    cargar_datos CargaArchivo.jsonInvalido = none ∧
    cargar_tablas_completas CargaArchivo.faltante = obtener_tablas_por_defecto :=
  ⟨rfl, rfl, rfl⟩

/-- C8 (amended): on a load failure at startup the band-table loader falls
back to the minimal built-in default table, and the composite-table and
CIT-table loaders fall back to empty built-in structures, none of them
raising; the raw-to-scaled converter's loader is the exception: it raises
on a missing or malformed file instead of falling back. -/
theorem cargar_tablas_fallback :
    cargar_tablas_completas CargaArchivo.faltante = obtener_tablas_por_defecto ∧
    cargar_tablas_completas CargaArchivo.jsonInvalido = obtener_tablas_por_defecto ∧
    cargar_tablas_completas (CargaArchivo.encontrada []) = obtener_tablas_por_defecto ∧
    cargar_tablas_compuestos CargaArchivo.faltante = { tablas_conversion := [] } ∧
    cargar_tablas_compuestos CargaArchivo.jsonInvalido = { tablas_conversion := [] } ∧
    cargar_tabla_cit CargaArchivo.faltante = { datos := [] } ∧
    cargar_tabla_cit CargaArchivo.jsonInvalido = { datos := [] } ∧
    cargar_datos CargaArchivo.faltante = none ∧
    cargar_datos CargaArchivo.jsonInvalido = none :=
  ⟨rfl, rfl, rfl, rfl, rfl, rfl, rfl, rfl, rfl⟩

/-! ## Patient deletion (`DatabaseManager.eliminar_paciente`, main.py 229-248) -/

/-- A row of the `pacientes` table. -/
structure Paciente where
  id : String
  nombre : String
  dni : String
  fecha_nacimiento : String
  notas : String
  fecha_registro : String
deriving DecidableEq, Repr

/-- A row of the `evaluaciones` table. -/
structure Evaluacion where
  id : String
  paciente_id : String
  fecha_evaluacion : String
  datos_evaluacion : String
deriving DecidableEq, Repr

/-- The two tables of the SQLite database, as lists of rows. -/
structure BaseDeDatos where
  pacientes : List Paciente
  evaluaciones : List Evaluacion

/-- main.py 229-248, `DatabaseManager.eliminar_paciente` on the success
path: first `DELETE FROM evaluaciones WHERE paciente_id = ?`, then
`DELETE FROM pacientes WHERE id = ?`, each DELETE modelled as a filter on
the table's rows. -/
def eliminar_paciente (db : BaseDeDatos) (paciente_id : String) : BaseDeDatos :=
  let db1 : BaseDeDatos :=
    { db with evaluaciones := db.evaluaciones.filter (fun e => e.paciente_id != paciente_id) }
  { db1 with pacientes := db1.pacientes.filter (fun p => p.id != paciente_id) }

/-- C9: after a successful `eliminar_paciente paciente_id`, an evaluation
row is in the database exactly when it was there before and does not
belong to the deleted patient — so none of the deleted patient's
evaluations remain and other patients' evaluations are unchanged; the
same holds for patient rows. -/
theorem eliminar_paciente_cascada :
    ∀ (db : BaseDeDatos) (paciente_id : String),
      (∀ e : Evaluacion, e ∈ (eliminar_paciente db paciente_id).evaluaciones ↔
        (e ∈ db.evaluaciones ∧ e.paciente_id ≠ paciente_id)) ∧
      (∀ p : Paciente, p ∈ (eliminar_paciente db paciente_id).pacientes ↔
        (p ∈ db.pacientes ∧ p.id ≠ paciente_id)) := by
  intro db pid
  constructor
  · intro e
    simp [eliminar_paciente, List.mem_filter]
  · intro p
    simp [eliminar_paciente, List.mem_filter]

theorem eliminar_paciente_cascada_testigo :
    ({ id := "e2", paciente_id := "p2", fecha_evaluacion := "2024-01-01",
       datos_evaluacion := "d" } : Evaluacion) ∈
      (eliminar_paciente
        { pacientes := [{ id := "p1", nombre := "A", dni := "1",
                          fecha_nacimiento := "2015-01-01", notas := "",
                          fecha_registro := "2024-01-01" }],
          evaluaciones :=
            [{ id := "e1", paciente_id := "p1", fecha_evaluacion := "2024-01-01",
               datos_evaluacion := "d" },
             { id := "e2", paciente_id := "p2", fecha_evaluacion := "2024-01-01",
               datos_evaluacion := "d" }] } "p1").evaluaciones := by
  exact ((eliminar_paciente_cascada _ "p1").1 _).2 ⟨by decide, by decide⟩

end PsicoMetric
